import Mathlib

/-!
# CHI32 (Cascading Hash Interleave, 32-bit): embedding of `chi32.h` and of the
iteration code of its two harnesses

Machine words are natural numbers reduced modulo `2^32` or `2^64`; the signed
types `int32_t`, `int64_t` and `int` are integers, and every C cast is an
explicit reinterpretation of the bit pattern.

The two rotate helpers shift by an amount that is computed at run time, and the
core is written in two forms.

* The checked forms answer the questions about shift amounts: a shift is defined
  only for an amount in `[0, width - 1]`, the rotate helpers go through the
  checked shifts below and return `none` when one of their two shifts is out of
  range, and `chi32_update_hash_value`, `chi32_apply_cascading_hash_interleave`
  and `chi32_derive_value_at` are built on them.
* The forms with the suffix `_val` give the value returned for every input: the
  left shift is reduced modulo the width of the word and the right shift is the
  shift of the natural number, which leaves `0` at the full width, so that a
  rotate by `0` returns its argument.  They are total, agree with the checked
  forms wherever those return a value, and are the ones the two harnesses call.

All other shifts of the source have a literal amount below the width of the
shifted word and are written with the total operators on `Nat`.

The arithmetic of the harnesses on their signed `int64_t` counters (`x++`,
`x--`, `phase + length`, `phase - length`) has a value only while the result is
in the range of `int64_t`; outside it the operation returns `none`.  The
statements about the harnesses are made for the runs in which the counters stay
in that range, where a wrapping sum or difference is the exact one.
-/

namespace Chi32

/-! ## Casts -/

/-- The cast `(uint32_t)x` of a signed value: its residue modulo `2^32`. -/
def to_u32 (x : Int) : Nat := (x % 4294967296).toNat

/-- The cast `(uint64_t)x` of a signed value: its residue modulo `2^64`. -/
def to_u64 (x : Int) : Nat := (x % 18446744073709551616).toNat

/-- The cast `(int32_t)n` (also `(int)n`) of an unsigned value: the low 32 bits
read as two's complement. -/
def to_i32 (n : Nat) : Int :=
  if n % 4294967296 < 2147483648 then ((n % 4294967296 : Nat) : Int)
  else ((n % 4294967296 : Nat) : Int) - 4294967296

/-- The cast `(int64_t)n` of an unsigned value: the low 64 bits read as two's
complement. -/
def to_i64 (n : Nat) : Int :=
  if n % 18446744073709551616 < 9223372036854775808 then ((n % 18446744073709551616 : Nat) : Int)
  else ((n % 18446744073709551616 : Nat) : Int) - 18446744073709551616

/-! ## Checked shifts -/

/-- The expression `x << k` on a `uint32_t` with a run-time amount. -/
def shl_u32 (x : Nat) (k : Int) : Option Nat :=
  if 0 ≤ k ∧ k < 32 then some ((x <<< k.toNat) % 4294967296) else none

/-- The expression `x >> k` on a `uint32_t` with a run-time amount. -/
def shr_u32 (x : Nat) (k : Int) : Option Nat :=
  if 0 ≤ k ∧ k < 32 then some (x >>> k.toNat) else none

/-- The expression `x << k` on a `uint64_t` with a run-time amount. -/
def shl_u64 (x : Nat) (k : Int) : Option Nat :=
  if 0 ≤ k ∧ k < 64 then some ((x <<< k.toNat) % 18446744073709551616) else none

/-- The expression `x >> k` on a `uint64_t` with a run-time amount. -/
def shr_u64 (x : Nat) (k : Int) : Option Nat :=
  if 0 ≤ k ∧ k < 64 then some (x >>> k.toNat) else none

/-! ## `chi32.h` -/

/-- Source: `return (x << k) | (x >> (32 - k));` -/
def chi32_internal_rotate_left_u32 (x : Nat) (k : Int) : Option Nat := do
  let l ← shl_u32 x k
  let r ← shr_u32 x (32 - k)
  pure (l ||| r)

/-- Source: `return (x << k) | (x >> (64 - k));` -/
def chi32_internal_rotate_left_u64 (x : Nat) (k : Int) : Option Nat := do
  let l ← shl_u64 x k
  let r ← shr_u64 x (64 - k)
  pure (l ||| r)

def prime_number_1 : Nat := 0x8addb2d1
def prime_number_2 : Nat := 0x8c723b45
def prime_number_3 : Nat := 0xfd923173
def prime_number_4 : Nat := 0x89a6aa0b
def prime_number_5 : Nat := 0x1f844cb7
def prime_number_6 : Nat := 0xfd2c1e9d

def shift_offset_1 : Nat := 15
def shift_offset_2 : Nat := 7
def shift_offset_3 : Nat := 29
def shift_offset_4 : Nat := 16

/-- The amount `rotate_amount = (int)(hash_u32 & 0x1FU)` that
`chi32_update_hash_value` computes after `hash_u32 ^= prime_number_1`. -/
def update_rotate_amount (previous_hash : Int) : Int :=
  to_i32 ((to_u32 previous_hash ^^^ prime_number_1) &&& 0x1F)

/-- The statements of `chi32_update_hash_value` that follow the rotate call;
`hash_u32` is the hash after `^= prime_number_1` and `rotated` the result of the
rotate. -/
def update_hash_tail (hash_u32 rotated : Nat) : Nat :=
  let hash_u32 := (hash_u32 + (prime_number_2 ^^^ rotated)) % 4294967296
  let hash_u32 := (hash_u32 * prime_number_3) % 4294967296
  let hash_u32 := hash_u32 ^^^ (hash_u32 >>> shift_offset_1)
  let hash_u32 := (hash_u32 * prime_number_4) % 4294967296
  let hash_u32 := hash_u32 ^^^ (hash_u32 >>> shift_offset_2)
  let hash_u32 := (hash_u32 + (hash_u32 >>> shift_offset_3)) % 4294967296
  let hash_u32 := (hash_u32 * prime_number_5) % 4294967296
  let hash_u32 := hash_u32 ^^^ (hash_u32 >>> shift_offset_4)
  let hash_u32 := (hash_u32 * prime_number_6) % 4294967296
  hash_u32

/-- Source: `chi32_update_hash_value`. -/
def chi32_update_hash_value (previous_hash value : Int) : Option Int := do
  let hash_u32 := to_u32 previous_hash
  let value_u32 := to_u32 value
  let hash_u32 := hash_u32 ^^^ prime_number_1
  let rotate_amount := update_rotate_amount previous_hash
  let rotated ← chi32_internal_rotate_left_u32 value_u32 rotate_amount
  pure (to_i32 (update_hash_tail hash_u32 rotated))

def golden_ratio_prime_multiplier : Nat := 0x9E3779B97F4A7C55
def final_step_prime_multiplier : Nat := 0x72A4EB92D796ED93
def interleave_bit_offset : Nat := 16
def wrap_around_bit_offset : Nat := interleave_bit_offset * 3

/-- The four 32-bit lanes of `chi32_apply_cascading_hash_interleave`. -/
structure Lanes where
  primary_pointer_low_i32 : Int
  primary_pointer_high_i32 : Int
  alternate_pointer_low_i32 : Int
  alternate_pointer_high_i32 : Int
deriving DecidableEq, Repr

/-- The first half of `chi32_apply_cascading_hash_interleave`: anchors, offsets,
pointers and their split into lanes. -/
def interleave_lanes (selector index : Int) : Lanes :=
  let primary_anchor_u64 := to_u64 selector
  let alternate_anchor_u64 :=
    (to_u64 (~~~selector) * golden_ratio_prime_multiplier) % 18446744073709551616
  let anchor_coupling_mask_u64 := primary_anchor_u64 &&& alternate_anchor_u64
  let primary_offset_u64 := to_u64 index
  let alternate_offset_u64 := to_u64 (~~~index) ^^^ anchor_coupling_mask_u64
  let primary_pointer_u64 := (primary_anchor_u64 + primary_offset_u64) % 18446744073709551616
  let alternate_pointer_u64 :=
    (((alternate_anchor_u64 : Int) - (alternate_offset_u64 : Int)) % 18446744073709551616).toNat
  { primary_pointer_low_i32 := to_i32 primary_pointer_u64
    primary_pointer_high_i32 := to_i32 (primary_pointer_u64 >>> 32)
    alternate_pointer_low_i32 := to_i32 alternate_pointer_u64
    alternate_pointer_high_i32 := to_i32 (alternate_pointer_u64 >>> 32) }

/-- The second half of `chi32_apply_cascading_hash_interleave`: the fold of the
four lanes through `chi32_update_hash_value`, up to the accumulator that is
multiplied by `final_step_prime_multiplier`. -/
def interleave_accumulator (l : Lanes) : Option Nat := do
  let h ← chi32_update_hash_value 0 l.alternate_pointer_low_i32
  let hash_accumulator_u64 := to_u32 h
  let h ← chi32_update_hash_value (to_i32 hash_accumulator_u64) l.alternate_pointer_high_i32
  let hash_accumulator_u64 :=
    to_u32 h ^^^ ((hash_accumulator_u64 <<< interleave_bit_offset) % 18446744073709551616)
  let h ← chi32_update_hash_value (to_i32 hash_accumulator_u64) l.primary_pointer_high_i32
  let hash_accumulator_u64 :=
    to_u32 h ^^^ ((hash_accumulator_u64 <<< interleave_bit_offset) % 18446744073709551616)
  let h ← chi32_update_hash_value (to_i32 hash_accumulator_u64) l.primary_pointer_low_i32
  let hash_accumulator_u64 :=
    to_u32 h ^^^ ((hash_accumulator_u64 <<< interleave_bit_offset) % 18446744073709551616)
      ^^^ (hash_accumulator_u64 >>> wrap_around_bit_offset)
  pure hash_accumulator_u64

/-- Source: `chi32_apply_cascading_hash_interleave`. -/
def chi32_apply_cascading_hash_interleave (selector index : Int) : Option Int := do
  let hash_accumulator_u64 ← interleave_accumulator (interleave_lanes selector index)
  pure (to_i64 ((hash_accumulator_u64 * final_step_prime_multiplier) % 18446744073709551616))

/-- The rotation offset of `chi32_derive_value_at`:
`(int)((low_bits_for_xor ^ mid_bits_for_xor ^ high_bits_for_xor) & 0x3FU)`. -/
def derive_offset (state_u64 : Nat) : Int :=
  let low_bits_for_xor := state_u64 % 4294967296
  let mid_bits_for_xor := (state_u64 >>> 29) % 4294967296
  let high_bits_for_xor := (state_u64 >>> 58) % 4294967296
  to_i32 ((low_bits_for_xor ^^^ mid_bits_for_xor ^^^ high_bits_for_xor) &&& 0x3F)

/-- Source: `chi32_derive_value_at`. -/
def chi32_derive_value_at (selector index : Int) : Option Int := do
  let state ← chi32_apply_cascading_hash_interleave selector index
  let state_u64 := to_u64 state
  let offset := derive_offset state_u64
  let rotated_state_u64 ← chi32_internal_rotate_left_u64 state_u64 offset
  pure (to_i32 rotated_state_u64)

/-! ## `chi32.h`, the values returned -/

/-- Source: `return (x << k) | (x >> (32 - k));` as a value: the left shift
modulo `2^32`, the right shift on the natural numbers. -/
def chi32_internal_rotate_left_u32_val (x : Nat) (k : Int) : Nat :=
  ((x <<< k.toNat) % 4294967296) ||| (x >>> (32 - k).toNat)

/-- Source: `return (x << k) | (x >> (64 - k));` as a value: the left shift
modulo `2^64`, the right shift on the natural numbers. -/
def chi32_internal_rotate_left_u64_val (x : Nat) (k : Int) : Nat :=
  ((x <<< k.toNat) % 18446744073709551616) ||| (x >>> (64 - k).toNat)

/-- Source: `chi32_update_hash_value`, the value returned. -/
def chi32_update_hash_value_val (previous_hash value : Int) : Int :=
  let hash_u32 := to_u32 previous_hash
  let value_u32 := to_u32 value
  let hash_u32 := hash_u32 ^^^ prime_number_1
  let rotate_amount := update_rotate_amount previous_hash
  let rotated := chi32_internal_rotate_left_u32_val value_u32 rotate_amount
  to_i32 (update_hash_tail hash_u32 rotated)

/-- The fold of the four lanes in `chi32_apply_cascading_hash_interleave`, the
value of the accumulator that is multiplied by `final_step_prime_multiplier`. -/
def interleave_accumulator_val (l : Lanes) : Nat :=
  let h := chi32_update_hash_value_val 0 l.alternate_pointer_low_i32
  let hash_accumulator_u64 := to_u32 h
  let h := chi32_update_hash_value_val (to_i32 hash_accumulator_u64) l.alternate_pointer_high_i32
  let hash_accumulator_u64 :=
    to_u32 h ^^^ ((hash_accumulator_u64 <<< interleave_bit_offset) % 18446744073709551616)
  let h := chi32_update_hash_value_val (to_i32 hash_accumulator_u64) l.primary_pointer_high_i32
  let hash_accumulator_u64 :=
    to_u32 h ^^^ ((hash_accumulator_u64 <<< interleave_bit_offset) % 18446744073709551616)
  let h := chi32_update_hash_value_val (to_i32 hash_accumulator_u64) l.primary_pointer_low_i32
  let hash_accumulator_u64 :=
    to_u32 h ^^^ ((hash_accumulator_u64 <<< interleave_bit_offset) % 18446744073709551616)
      ^^^ (hash_accumulator_u64 >>> wrap_around_bit_offset)
  hash_accumulator_u64

/-- Source: `chi32_apply_cascading_hash_interleave`, the value returned. -/
def chi32_apply_cascading_hash_interleave_val (selector index : Int) : Int :=
  let hash_accumulator_u64 := interleave_accumulator_val (interleave_lanes selector index)
  to_i64 ((hash_accumulator_u64 * final_step_prime_multiplier) % 18446744073709551616)

/-- Source: `chi32_derive_value_at`, the value returned. -/
def chi32_derive_value_at_val (selector index : Int) : Int :=
  let state_u64 := to_u64 (chi32_apply_cascading_hash_interleave_val selector index)
  let offset := derive_offset state_u64
  let rotated_state_u64 := chi32_internal_rotate_left_u64_val state_u64 offset
  to_i32 rotated_state_u64

/-- The variable `state_u64` of `chi32_derive_value_at`. -/
def derive_state_u64 (selector index : Int) : Nat :=
  to_u64 (chi32_apply_cascading_hash_interleave_val selector index)

/-- The expression `(uint32_t)chi32_derive_value_at(selector, index)` of both
harnesses. -/
def derive_value_u32 (selector index : Int) : Nat :=
  to_u32 (chi32_derive_value_at_val selector index)

/-! ## Iteration bookkeeping shared by the two harnesses

The counters of the harnesses are signed (`int64_t`): an operation on them whose
result leaves the range of `int64_t` has no value. -/

/-- The expression `a + b` on `int64_t`: no value when it overflows. -/
def add_i64 (a b : Int) : Option Int :=
  if -9223372036854775808 ≤ a + b ∧ a + b ≤ 9223372036854775807 then some (a + b) else none

/-- The expression `a - b` on `int64_t`: no value when it overflows. -/
def sub_i64 (a b : Int) : Option Int :=
  if -9223372036854775808 ≤ a - b ∧ a - b ≤ 9223372036854775807 then some (a - b) else none

/-- The statement `x++` on an `int64_t`: no value when it overflows. -/
def incr_i64 (x : Int) : Option Int := add_i64 x 1

/-- The statement `x--` on an `int64_t`: no value when it overflows. -/
def decr_i64 (x : Int) : Option Int := sub_i64 x 1

/-- The enumeration `strategy_kind_t` of both harnesses. -/
inductive strategy_kind_t where
  | STRATEGY_SEQUENTIAL
  | STRATEGY_SWAPPED
  | STRATEGY_FEEDBACK
  | STRATEGY_UNKNOWN
deriving DecidableEq, Repr

/-! ## `tools/testu01_harness/main.c` -/

/-- The module-level variables of the adapter. -/
structure generator_globals where
  g_current_selector : Int
  g_current_index : Int
  g_cli_seed_arg : Int
  g_cli_phase_arg : Int
  g_strategy : strategy_kind_t
deriving DecidableEq, Repr

/-- Source: `chi32_generator_bits`, as a step on the globals: the returned value
and the globals after the call.  `none` is the `exit(EXIT_FAILURE)` of the
default branch, or a counter that overflows. -/
def chi32_generator_bits (g : generator_globals) : Option (Nat × generator_globals) :=
  match g.g_strategy with
  | .STRATEGY_SEQUENTIAL => do
    let result_i32 := chi32_derive_value_at_val g.g_current_selector g.g_current_index
    let g_current_index ← incr_i64 g.g_current_index
    pure (to_u32 result_i32, { g with g_current_index := g_current_index })
  | .STRATEGY_SWAPPED => do
    let result_i32 := chi32_derive_value_at_val g.g_current_selector g.g_current_index
    let g_current_selector ← decr_i64 g.g_current_selector
    pure (to_u32 result_i32, { g with g_current_selector := g_current_selector })
  | .STRATEGY_FEEDBACK =>
    let result_i32 := chi32_derive_value_at_val g.g_current_selector g.g_current_index
    let result_u32 := to_u32 result_i32
    let prev_seed_u64 := to_u64 g.g_current_selector
    let prev_phase_u64 := to_u64 g.g_current_index
    some (result_u32,
      { g with
        g_current_selector :=
          to_i64 (((prev_seed_u64 <<< 32) % 18446744073709551616) ||| (prev_phase_u64 >>> 32))
        g_current_index :=
          to_i64 (((prev_phase_u64 <<< 32) % 18446744073709551616) ||| result_u32) })
  | .STRATEGY_UNKNOWN => none

/-- The values returned by `n` successive calls of `chi32_generator_bits`, in
order, and the globals after the last call. -/
def generator_run : Nat → generator_globals → Option (List Nat × generator_globals)
  | 0, g => some ([], g)
  | n + 1, g => do
    let (value, g) ← chi32_generator_bits g
    let (values, g) ← generator_run n g
    pure (value :: values, g)

/-! ## `tests/test_chi32_canonical.c` -/

/-- The fields of `canonical_test_case_t` that the test runners read;
`data_buffer = none` is the `NULL` pointer, otherwise the loaded values. -/
structure canonical_test_case_t where
  strategy : strategy_kind_t
  seed : Int
  phase : Int
  length : Int
  data_buffer : Option (List Nat)
deriving DecidableEq, Repr

/-- A line group written to `stderr` by a test runner. -/
inductive diagnostic where
  | invalid_test_case
  | mismatch (i : Nat) (expected actual : Nat)
  | suppressed
  | internal_warning
  | test_failed (errors_found : Nat)
deriving DecidableEq, Repr

/-- Whether a diagnostic is a mismatch reported in full (its three `MISMATCH`,
`Expected`, `Actual` lines). -/
def diagnostic.is_mismatch : diagnostic → Bool
  | diagnostic.mismatch _ _ _ => true
  | _ => false

/-- The variables a comparison loop updates: the counter `errors_found`, the
values of `actual_value_u32` computed so far, and what was printed. -/
structure comparison_state where
  errors_found : Nat
  actual_values : List Nat
  diagnostics : List diagnostic
deriving DecidableEq, Repr

def max_errors_to_print : Nat := 5

/-- The `if (actual_value_u32 != test_case->data_buffer[i]) { ... }` block that
the three runners share. -/
def compare_value (i expected actual : Nat) (st : comparison_state) : comparison_state :=
  let st := { st with actual_values := st.actual_values ++ [actual] }
  if actual ≠ expected then
    { st with
      errors_found := st.errors_found + 1
      diagnostics :=
        if st.errors_found < max_errors_to_print then
          st.diagnostics ++ [diagnostic.mismatch i expected actual]
        else if st.errors_found = max_errors_to_print then
          st.diagnostics ++ [diagnostic.suppressed]
        else st.diagnostics }
  else st

/-- The `for` loop of `run_test_sequential`, with `remaining = length - i`
iterations left; reading `data_buffer[i]` past the buffer gives no result, and
neither does a `current_phase++` that overflows.  The loop variable `i` stays
below `length`, an `int32_t`, so `++i` does not overflow. -/
def run_test_sequential_loop (seed : Int) (data_buffer : List Nat) :
    Nat → Nat → Int → comparison_state → Option (Int × comparison_state)
  | 0, _, current_phase, st => some (current_phase, st)
  | remaining + 1, i, current_phase, st => do
    let actual_value_u32 := derive_value_u32 seed current_phase
    let expected ← data_buffer[i]?
    let st := compare_value i expected actual_value_u32 st
    let current_phase ← incr_i64 current_phase
    run_test_sequential_loop seed data_buffer remaining (i + 1) current_phase st

/-- What a test runner returns (`passed`) together with its final counter, the
values it computed and its output. -/
structure test_outcome where
  passed : Bool
  errors_found : Nat
  actual_values : List Nat
  diagnostics : List diagnostic
deriving DecidableEq, Repr

/-- Source: `run_test_sequential`. -/
def run_test_sequential (test_case : canonical_test_case_t) : Option test_outcome :=
  match test_case.data_buffer with
  | none => some ⟨false, 0, [], [diagnostic.invalid_test_case]⟩
  | some data_buffer =>
    if test_case.strategy ≠ strategy_kind_t.STRATEGY_SEQUENTIAL then
      some ⟨false, 0, [], [diagnostic.invalid_test_case]⟩
    else do
      let (current_phase, st) ←
        run_test_sequential_loop test_case.seed data_buffer test_case.length.toNat 0
          test_case.phase ⟨0, [], []⟩
      let expected_final_phase ← add_i64 test_case.phase test_case.length
      let st :=
        if current_phase ≠ expected_final_phase then
          { st with diagnostics := st.diagnostics ++ [diagnostic.internal_warning] }
        else st
      if st.errors_found > 0 then
        pure ⟨false, st.errors_found, st.actual_values,
          st.diagnostics ++ [diagnostic.test_failed st.errors_found]⟩
      else
        pure ⟨true, st.errors_found, st.actual_values, st.diagnostics⟩

/-- The `for` loop of `run_test_swapped`, with `remaining = length - i`
iterations left. -/
def run_test_swapped_loop (fixed_index : Int) (data_buffer : List Nat) :
    Nat → Nat → Int → comparison_state → Option (Int × comparison_state)
  | 0, _, current_selector, st => some (current_selector, st)
  | remaining + 1, i, current_selector, st => do
    let actual_value_u32 := derive_value_u32 current_selector fixed_index
    let expected ← data_buffer[i]?
    let st := compare_value i expected actual_value_u32 st
    let current_selector ← decr_i64 current_selector
    run_test_swapped_loop fixed_index data_buffer remaining (i + 1) current_selector st

/-- Source: `run_test_swapped`. -/
def run_test_swapped (test_case : canonical_test_case_t) : Option test_outcome :=
  match test_case.data_buffer with
  | none => some ⟨false, 0, [], [diagnostic.invalid_test_case]⟩
  | some data_buffer =>
    if test_case.strategy ≠ strategy_kind_t.STRATEGY_SWAPPED then
      some ⟨false, 0, [], [diagnostic.invalid_test_case]⟩
    else do
      let fixed_index := test_case.seed
      let (current_selector, st) ←
        run_test_swapped_loop fixed_index data_buffer test_case.length.toNat 0
          test_case.phase ⟨0, [], []⟩
      let expected_final_selector ← sub_i64 test_case.phase test_case.length
      let st :=
        if current_selector ≠ expected_final_selector then
          { st with diagnostics := st.diagnostics ++ [diagnostic.internal_warning] }
        else st
      if st.errors_found > 0 then
        pure ⟨false, st.errors_found, st.actual_values,
          st.diagnostics ++ [diagnostic.test_failed st.errors_found]⟩
      else
        pure ⟨true, st.errors_found, st.actual_values, st.diagnostics⟩

/-- The `for` loop of `run_test_feedback`, with `remaining = length - i`
iterations left; the result carries the final `current_seed_i64` and
`current_phase_i64`. -/
def run_test_feedback_loop (data_buffer : List Nat) :
    Nat → Nat → Int → Int → comparison_state → Option (Int × Int × comparison_state)
  | 0, _, current_seed_i64, current_phase_i64, st => some (current_seed_i64, current_phase_i64, st)
  | remaining + 1, i, current_seed_i64, current_phase_i64, st => do
    let actual_value_u32 := derive_value_u32 current_seed_i64 current_phase_i64
    let expected ← data_buffer[i]?
    let st := compare_value i expected actual_value_u32 st
    let prev_seed_u64 := to_u64 current_seed_i64
    let prev_phase_u64 := to_u64 current_phase_i64
    let actual_val_as_u64_for_phase := actual_value_u32
    run_test_feedback_loop data_buffer remaining (i + 1)
      (to_i64 (((prev_seed_u64 <<< 32) % 18446744073709551616) ||| (prev_phase_u64 >>> 32)))
      (to_i64 (((prev_phase_u64 <<< 32) % 18446744073709551616) ||| actual_val_as_u64_for_phase))
      st

/-- Source: `run_test_feedback`. -/
def run_test_feedback (test_case : canonical_test_case_t) : Option test_outcome :=
  match test_case.data_buffer with
  | none => some ⟨false, 0, [], [diagnostic.invalid_test_case]⟩
  | some data_buffer =>
    if test_case.strategy ≠ strategy_kind_t.STRATEGY_FEEDBACK then
      some ⟨false, 0, [], [diagnostic.invalid_test_case]⟩
    else do
      let (_, _, st) ←
        run_test_feedback_loop data_buffer test_case.length.toNat 0
          test_case.seed test_case.phase ⟨0, [], []⟩
      if st.errors_found > 0 then
        pure ⟨false, st.errors_found, st.actual_values,
          st.diagnostics ++ [diagnostic.test_failed st.errors_found]⟩
      else
        pure ⟨true, st.errors_found, st.actual_values, st.diagnostics⟩

/-- The comparison block of the runners applied at the successive positions
`i, i + 1, ...`: each pair holds the reference value of a position and the value
computed for it. -/
def compare_values : Nat → List (Nat × Nat) → comparison_state → comparison_state
  | _, [], st => st
  | i, (expected, actual) :: rest, st =>
    compare_values (i + 1) rest (compare_value i expected actual st)

/-- The end of the three runners, `if (errors_found > 0) { ...; return false; }`
followed by `return true;`, on the state the loop leaves. -/
def outcome_of (st : comparison_state) : test_outcome :=
  if st.errors_found > 0 then
    ⟨false, st.errors_found, st.actual_values,
      st.diagnostics ++ [diagnostic.test_failed st.errors_found]⟩
  else ⟨true, st.errors_found, st.actual_values, st.diagnostics⟩

/-- The assignment to `test_case->data_buffer[i]` in
`load_binary_data_for_test_case`:
`bytes[0] | (bytes[1] << 8) | (bytes[2] << 16) | (bytes[3] << 24)` on
`uint32_t`. -/
def decode_bytes (b0 b1 b2 b3 : Nat) : Nat :=
  b0 ||| ((b1 <<< 8) % 4294967296) ||| ((b2 <<< 16) % 4294967296)
    ||| ((b3 <<< 24) % 4294967296)

/-- The reading loop of `load_binary_data_for_test_case`: `length` groups of
four bytes from the file; `none` when an `fread` returns fewer than 4 bytes. -/
def read_values : Nat → List Nat → Option (List Nat)
  | 0, _ => some []
  | remaining + 1, b0 :: b1 :: b2 :: b3 :: rest =>
    (read_values remaining rest).map (fun values => decode_bytes b0 b1 b2 b3 :: values)
  | _ + 1, _ => none

/-- An entry of `test_cases[]` after parsing, with the name of its reference
file and the bytes of that file (`none` when `fopen` fails). -/
structure parsed_test_case where
  test_case : canonical_test_case_t
  bin_filename : String
  file : Option (List Nat)
deriving DecidableEq, Repr

/-- Source: `load_binary_data_for_test_case` (the allocation is taken to
succeed): the returned flag and the test case with its `data_buffer`. -/
def load_binary_data_for_test_case (c : parsed_test_case) : Bool × canonical_test_case_t :=
  if c.bin_filename = "" ∨ c.test_case.length ≤ 0 then (false, c.test_case)
  else
    match c.file with
    | none => (false, { c.test_case with data_buffer := none })
    | some bytes =>
      match read_values c.test_case.length.toNat bytes with
      | none => (false, { c.test_case with data_buffer := none })
      | some values => (true, { c.test_case with data_buffer := some values })

/-- What `main` prints for one test case. -/
inductive case_report where
  | load_failed
  | pass
  | fail
deriving DecidableEq, Repr

/-- The `switch (test_cases[i].strategy)` of `main`: the value of
`current_test_passed`. -/
def run_test_by_strategy (test_case : canonical_test_case_t) : Option Bool :=
  match test_case.strategy with
  | .STRATEGY_SEQUENTIAL => (run_test_sequential test_case).map (fun o => o.passed)
  | .STRATEGY_SWAPPED => (run_test_swapped test_case).map (fun o => o.passed)
  | .STRATEGY_FEEDBACK => (run_test_feedback test_case).map (fun o => o.passed)
  | .STRATEGY_UNKNOWN => some false

/-- The processing loop of `main` over the parsed test cases: the final value of
`all_overall_tests_passed` and the report printed for each case. -/
def main_loop : List parsed_test_case → Bool → List case_report →
    Option (Bool × List case_report)
  | [], all_overall_tests_passed, reports => some (all_overall_tests_passed, reports)
  | c :: rest, all_overall_tests_passed, reports =>
    match load_binary_data_for_test_case c with
    | (false, _) => main_loop rest false (reports ++ [case_report.load_failed])
    | (true, test_case) => do
      let current_test_passed ← run_test_by_strategy test_case
      if current_test_passed then
        main_loop rest all_overall_tests_passed (reports ++ [case_report.pass])
      else
        main_loop rest false (reports ++ [case_report.fail])

/-- The report of `main` for a test case taken on its own: the load, then the
runner of its strategy. -/
def report_for_case (c : parsed_test_case) : Option case_report :=
  match load_binary_data_for_test_case c with
  | (false, _) => some case_report.load_failed
  | (true, test_case) =>
    (run_test_by_strategy test_case).map
      (fun current_test_passed => if current_test_passed then case_report.pass else case_report.fail)

/-- The exit status of `main`. -/
inductive exit_status where
  | EXIT_SUCCESS
  | EXIT_FAILURE
deriving DecidableEq, Repr

/-- Source: `main` of the regression harness, given what
`parse_canonical_meta_csv` produced: `none` for its return value `-1`, otherwise
the parsed entries, whose number is its return value. -/
def main (parsed : Option (List parsed_test_case)) : Option (exit_status × List case_report) :=
  match parsed with
  | none => some (exit_status.EXIT_FAILURE, [])
  | some test_cases =>
    if (test_cases.length : Int) ≤ 0 then some (exit_status.EXIT_FAILURE, [])
    else do
      let (all_overall_tests_passed, reports) ← main_loop test_cases true []
      if all_overall_tests_passed then pure (exit_status.EXIT_SUCCESS, reports)
      else pure (exit_status.EXIT_FAILURE, reports)

/-! ## Named parts of `chi32_derive_value_at` and of the multiplication steps -/

/-- Source: `uint32_t low_bits_for_xor = (uint32_t)state_u64;` -/
def low_bits_for_xor (state_u64 : Nat) : Nat := state_u64 % 4294967296

/-- Source: `uint32_t mid_bits_for_xor = (uint32_t)(state_u64 >> 29);` -/
def mid_bits_for_xor (state_u64 : Nat) : Nat := (state_u64 >>> 29) % 4294967296

/-- Source: `uint32_t high_bits_for_xor = (uint32_t)(state_u64 >> 58);` -/
def high_bits_for_xor (state_u64 : Nat) : Nat := (state_u64 >>> 58) % 4294967296

/-- The statements of `chi32_update_hash_value` from the addition after the
rotate call up to `hash_u32 ^= hash_u32 >> shift_offset_2`: the value of
`hash_u32` just before `hash_u32 += hash_u32 >> shift_offset_3`. -/
def hash_before_shift_add (hash_u32 rotated : Nat) : Nat :=
  let hash_u32 := (hash_u32 + (prime_number_2 ^^^ rotated)) % 4294967296
  let hash_u32 := (hash_u32 * prime_number_3) % 4294967296
  let hash_u32 := hash_u32 ^^^ (hash_u32 >>> shift_offset_1)
  let hash_u32 := (hash_u32 * prime_number_4) % 4294967296
  let hash_u32 := hash_u32 ^^^ (hash_u32 >>> shift_offset_2)
  hash_u32

/-- The statement `hash_u32 += hash_u32 >> shift_offset_3;`. -/
def shift_add (hash_u32 : Nat) : Nat :=
  (hash_u32 + (hash_u32 >>> shift_offset_3)) % 4294967296

/-- The statements of `chi32_update_hash_value` that follow
`hash_u32 += hash_u32 >> shift_offset_3`. -/
def hash_after_shift_add (hash_u32 : Nat) : Nat :=
  let hash_u32 := (hash_u32 * prime_number_5) % 4294967296
  let hash_u32 := hash_u32 ^^^ (hash_u32 >>> shift_offset_4)
  let hash_u32 := (hash_u32 * prime_number_6) % 4294967296
  hash_u32

/-- The statement `hash_u32 *= c` on a `uint32_t`. -/
def mul_u32 (c hash_u32 : Nat) : Nat := (hash_u32 * c) % 4294967296

/-- The expression `x * c` on a `uint64_t`. -/
def mul_u64 (c x : Nat) : Nat := (x * c) % 18446744073709551616

/-! ## The steps of the specification, for comparison with the code -/

/-- Specification 4.1, `rotate_left_32`: `(x << k) | (x >> (32 - k))` over the
natural numbers, the left shift reduced modulo `2^32`. -/
def spec_rotate_left_32 (x k : Nat) : Nat :=
  ((x * 2 ^ k) % 2 ^ 32) ||| (x / 2 ^ (32 - k))

/-- Specification 4.1, `rotate_left_64`: `(x << k) | (x >> (64 - k))` over the
natural numbers, the left shift reduced modulo `2^64`. -/
def spec_rotate_left_64 (x k : Nat) : Nat :=
  ((x * 2 ^ k) % 2 ^ 64) ||| (x / 2 ^ (64 - k))

/-- Specification 4.2, steps 1 to 7, on the unsigned bit patterns and over the
natural numbers, reduced modulo `2^32` after the addition of step 3, after each
multiplication and after `hash += hash >> 29`. -/
def spec_update_hash (previous_hash value : Nat) : Nat :=
  let hash := previous_hash ^^^ 0x8addb2d1
  let rotation_amount := hash % 32
  let rotated := spec_rotate_left_32 value rotation_amount
  let hash := (hash + (0x8c723b45 ^^^ rotated)) % 2 ^ 32
  let hash := (hash * 0xfd923173) % 2 ^ 32
  let hash := hash ^^^ (hash / 2 ^ 15)
  let hash := (hash * 0x89a6aa0b) % 2 ^ 32
  let hash := hash ^^^ (hash / 2 ^ 7)
  let hash := (hash + hash / 2 ^ 29) % 2 ^ 32
  let hash := (hash * 0x1f844cb7) % 2 ^ 32
  let hash := hash ^^^ (hash / 2 ^ 16)
  let hash := (hash * 0xfd2c1e9d) % 2 ^ 32
  hash

/-- Specification 4.3, step 2, on the unsigned image `S` of the selector:
`bitwise_not(S) * K1` modulo `2^64`, the complement being `2^64 - 1 - S`. -/
def spec_alternate_anchor (S : Nat) : Nat :=
  ((2 ^ 64 - 1 - S) * 0x9E3779B97F4A7C55) % 2 ^ 64

/-- Specification 4.3, steps 3 and 5, on the unsigned images `S` and `I`:
`bitwise_not(I) XOR (S AND alternate_anchor)`. -/
def spec_alternate_offset (S I : Nat) : Nat :=
  (2 ^ 64 - 1 - I) ^^^ (S &&& spec_alternate_anchor S)

/-- The little-endian byte encoding of an unsigned 32-bit value: least
significant byte first. -/
def spec_encode_le (v : Nat) : List Nat :=
  [v % 256, v / 256 % 256, v / 65536 % 256, v / 16777216 % 256]

/-- The little-endian byte encoding of a sequence of unsigned 32-bit values. -/
def spec_encode_values : List Nat → List Nat
  | [] => []
  | v :: values => spec_encode_le v ++ spec_encode_values values

/-- Specification 4.2, step 8: a 32-bit pattern read as two's complement. -/
def spec_signed_32 (pattern : Nat) : Int :=
  if pattern < 2 ^ 31 then (pattern : Int) else (pattern : Int) - 2 ^ 32

/-- A signed 64-bit value after a wrapping 64-bit addition or subtraction: the
residue modulo `2^64` read as two's complement. -/
def spec_wrap_64 (x : Int) : Int :=
  if x % 2 ^ 64 < 2 ^ 63 then x % 2 ^ 64 else x % 2 ^ 64 - 2 ^ 64

/-- Specification 6, sequential: the values for seed `S`, starting phase `P` and
length `L`: the selector is `S`, the index is `P + i` as a wrapping 64-bit sum. -/
def spec_sequential_values (S P : Int) (L : Nat) : List Nat :=
  (List.range L).map (fun (i : Nat) => derive_value_u32 S (spec_wrap_64 (P + (i : Int))))

/-- Specification 6, swapped: the values for seed `S`, starting phase `P` and
length `L`: the index is `S`, the selector is `P - i` as a wrapping 64-bit
difference. -/
def spec_swapped_values (S P : Int) (L : Nat) : List Nat :=
  (List.range L).map (fun (i : Nat) => derive_value_u32 (spec_wrap_64 (P - (i : Int))) S)

/-- Specification 6, feedback: the state that follows `(selector, index)`, on
the unsigned 64-bit patterns and over the natural numbers:
`new_selector = (selector << 32) | (index >> 32)` and
`new_index = (index << 32) | zero_extended(output)`, each read back as signed. -/
def spec_feedback_step (state : Int × Int) : Int × Int :=
  let selector := to_u64 state.1
  let index := to_u64 state.2
  let output := derive_value_u32 state.1 state.2
  (to_i64 (((selector * 2 ^ 32) % 2 ^ 64) ||| (index / 2 ^ 32)),
    to_i64 (((index * 2 ^ 32) % 2 ^ 64) ||| output))

/-- Specification 6, feedback: the state before step `n`, from seed and phase. -/
def spec_feedback_state (seed phase : Int) : Nat → Int × Int
  | 0 => (seed, phase)
  | n + 1 => spec_feedback_step (spec_feedback_state seed phase n)

/-- Specification 6, feedback: the output of step `n`. -/
def spec_feedback_output (seed phase : Int) (n : Nat) : Nat :=
  derive_value_u32 (spec_feedback_state seed phase n).1 (spec_feedback_state seed phase n).2

/-- Specification 6, feedback: the first `L` outputs. -/
def spec_feedback_values (seed phase : Int) (L : Nat) : List Nat :=
  (List.range L).map (spec_feedback_output seed phase)

/-- The values a strategy produces from a seed and a phase; none for an unknown
strategy. -/
def spec_strategy_values (strategy : strategy_kind_t) (seed phase : Int) (L : Nat) : List Nat :=
  match strategy with
  | .STRATEGY_SEQUENTIAL => spec_sequential_values seed phase L
  | .STRATEGY_SWAPPED => spec_swapped_values seed phase L
  | .STRATEGY_FEEDBACK => spec_feedback_values seed phase L
  | .STRATEGY_UNKNOWN => []

/-- Whether the `int64_t` counter of a test case stays in range over its
`length` iterations and in the sum or difference that follows the loop: the
phase of a sequential case, the selector of a swapped case. -/
def counters_in_range (test_case : canonical_test_case_t) : Bool :=
  match test_case.strategy with
  | .STRATEGY_SEQUENTIAL =>
    decide (-9223372036854775808 ≤ test_case.phase
      ∧ test_case.phase + test_case.length ≤ 9223372036854775807)
  | .STRATEGY_SWAPPED =>
    decide (test_case.phase ≤ 9223372036854775807
      ∧ -9223372036854775808 ≤ test_case.phase - test_case.length)
  | _ => true

/-- Specification 7, skip-and-continue: what a run reports for a parsed test
case taken on its own.  The load fails when the file name is empty, the length
is not positive, or the file is missing or holds fewer than `length` values;
the case passes when the loaded values are the values of its strategy. -/
def spec_case_report (c : parsed_test_case) : case_report :=
  if c.bin_filename = "" ∨ c.test_case.length ≤ 0 then case_report.load_failed
  else
    match c.file.bind (read_values c.test_case.length.toNat) with
    | none => case_report.load_failed
    | some values =>
      if c.test_case.strategy ≠ strategy_kind_t.STRATEGY_UNKNOWN
          ∧ values = spec_strategy_values c.test_case.strategy c.test_case.seed
              c.test_case.phase values.length
      then case_report.pass else case_report.fail

/-! ## Casts and words -/

theorem to_u32_lt (x : Int) : to_u32 x < 4294967296 := by
  unfold to_u32; omega

theorem to_u64_lt (x : Int) : to_u64 x < 18446744073709551616 := by
  unfold to_u64; omega

theorem to_u32_to_i32 (n : Nat) : to_u32 (to_i32 n) = n % 4294967296 := by
  unfold to_u32 to_i32; split <;> omega

theorem to_u64_to_i64 (n : Nat) : to_u64 (to_i64 n) = n % 18446744073709551616 := by
  unfold to_u64 to_i64; split <;> omega

theorem to_i32_of_small (n : Nat) (h : n < 2147483648) : to_i32 n = (n : Int) := by
  unfold to_i32; split <;> omega

theorem complement_eq (x : Int) : ~~~x = -x - 1 := by
  cases x with
  | ofNat n => show Int.negSucc n = _; rw [Int.negSucc_eq]; simp; omega
  | negSucc n => show (Int.ofNat n) = _; rw [Int.negSucc_eq]; simp

theorem to_u64_complement (x : Int) :
    to_u64 (~~~x) = 18446744073709551615 - to_u64 x := by
  rw [complement_eq]; unfold to_u64; omega

theorem xor_mod_two_pow (a b n : Nat) : (a ^^^ b) % 2 ^ n = a % 2 ^ n ^^^ b % 2 ^ n := by
  apply Nat.eq_of_testBit_eq
  intro i
  simp only [Nat.testBit_mod_two_pow, Nat.testBit_xor]
  cases decide (i < n) <;> simp

/-! ## The rotate helpers -/

theorem rotate_left_u32_zero (x : Nat) : chi32_internal_rotate_left_u32 x 0 = none := by
  simp [chi32_internal_rotate_left_u32, shl_u32, shr_u32]

theorem rotate_left_u64_zero (x : Nat) : chi32_internal_rotate_left_u64 x 0 = none := by
  simp [chi32_internal_rotate_left_u64, shl_u64, shr_u64]

theorem rotate_left_u32_pos (x k : Nat) (h1 : 1 ≤ k) (h2 : k ≤ 31) :
    chi32_internal_rotate_left_u32 x (k : Int)
      = some (((x <<< k) % 4294967296) ||| (x >>> (32 - k))) := by
  have e : ((32 : Int) - (k : Int)).toNat = 32 - k := by omega
  have c1 : (0 : Int) ≤ (k : Int) ∧ (k : Int) < 32 := by omega
  have c2 : (0 : Int) ≤ 32 - (k : Int) ∧ (32 : Int) - (k : Int) < 32 := by omega
  simp [chi32_internal_rotate_left_u32, shl_u32, shr_u32, c1, c2, e]

theorem rotate_left_u64_pos (x k : Nat) (h1 : 1 ≤ k) (h2 : k ≤ 63) :
    chi32_internal_rotate_left_u64 x (k : Int)
      = some (((x <<< k) % 18446744073709551616) ||| (x >>> (64 - k))) := by
  have e : ((64 : Int) - (k : Int)).toNat = 64 - k := by omega
  have c1 : (0 : Int) ≤ (k : Int) ∧ (k : Int) < 64 := by omega
  have c2 : (0 : Int) ≤ 64 - (k : Int) ∧ (64 : Int) - (k : Int) < 64 := by omega
  simp [chi32_internal_rotate_left_u64, shl_u64, shr_u64, c1, c2, e]

theorem update_rotate_amount_eq (previous_hash : Int) :
    update_rotate_amount previous_hash
      = (((to_u32 previous_hash ^^^ 0x8addb2d1) % 32 : Nat) : Int) := by
  have h := Nat.and_pow_two_sub_one_eq_mod (to_u32 previous_hash ^^^ 0x8addb2d1) 5
  norm_num at h
  unfold update_rotate_amount prime_number_1
  rw [h]
  apply to_i32_of_small
  omega

theorem derive_offset_eq (state_u64 : Nat) :
    derive_offset state_u64
      = (((state_u64 % 4294967296 ^^^ (state_u64 >>> 29) % 4294967296
            ^^^ (state_u64 >>> 58) % 4294967296) % 64 : Nat) : Int) := by
  have h := Nat.and_pow_two_sub_one_eq_mod (state_u64 % 4294967296
    ^^^ (state_u64 >>> 29) % 4294967296 ^^^ (state_u64 >>> 58) % 4294967296) 6
  norm_num at h
  unfold derive_offset
  simp only []
  rw [h]
  apply to_i32_of_small
  omega

theorem derive_offset_bounds (state_u64 : Nat) :
    0 ≤ derive_offset state_u64 ∧ derive_offset state_u64 ≤ 63 := by
  rw [derive_offset_eq]
  omega

/-! ## Lists and the checked core -/

theorem compare_value_actual_values (i expected actual : Nat) (st : comparison_state) :
    (compare_value i expected actual st).actual_values = st.actual_values ++ [actual] := by
  unfold compare_value
  split <;> rfl

theorem range_succ_map_shift {β : Type} (f : Nat → β) (n : Nat) :
    (List.range (n + 1)).map f = f 0 :: (List.range n).map (fun j => f (j + 1)) := by
  rw [List.range_succ_eq_map, List.map_cons, List.map_map]
  rfl

theorem update_hash_value_isSome (previous_hash value : Int) :
    (chi32_update_hash_value previous_hash value).isSome
      = decide (update_rotate_amount previous_hash ≠ 0) := by
  unfold chi32_update_hash_value
  rw [update_rotate_amount_eq]
  have hk : (to_u32 previous_hash ^^^ 0x8addb2d1) % 32 < 32 := Nat.mod_lt _ (by norm_num)
  generalize (to_u32 previous_hash ^^^ 0x8addb2d1) % 32 = k at hk
  by_cases h0 : k = 0
  · subst h0
    simp [rotate_left_u32_zero]
  · have h1 : 1 ≤ k := Nat.one_le_iff_ne_zero.mpr h0
    simp [rotate_left_u32_pos _ _ h1 (by omega : k ≤ 31), h0]

/-- For a state whose offset is not 0 the final rotation is defined, and the
result of `chi32_derive_value_at` is the low 32 bits of the state rotated left
by the offset: bit `i` of the output is bit `(i - offset) mod 64` of the
state. -/
theorem derive_value_at_of_pos_offset (selector index state : Int)
    (h : chi32_apply_cascading_hash_interleave selector index = some state)
    (hk : derive_offset (to_u64 state) ≠ 0) :
    ∃ out, chi32_derive_value_at selector index = some out
      ∧ ∀ i, i < 32 → (to_u32 out).testBit i
          = (to_u64 state).testBit ((i + 64 - (derive_offset (to_u64 state)).toNat) % 64) := by
  obtain ⟨hlo, hhi⟩ := derive_offset_bounds (to_u64 state)
  obtain ⟨k, hkk⟩ : ∃ k : Nat, derive_offset (to_u64 state) = (k : Int) :=
    ⟨(derive_offset (to_u64 state)).toNat, by omega⟩
  have h1 : 1 ≤ k := by omega
  have h2 : k ≤ 63 := by omega
  have hx := to_u64_lt state
  refine ⟨to_i32 (((to_u64 state <<< k) % 18446744073709551616) ||| (to_u64 state >>> (64 - k))),
    ?_, ?_⟩
  · unfold chi32_derive_value_at
    rw [h]
    show (chi32_internal_rotate_left_u64 (to_u64 state) (derive_offset (to_u64 state))).bind
      (fun rotated_state_u64 => some (to_i32 rotated_state_u64)) = _
    rw [hkk, rotate_left_u64_pos _ _ h1 h2]
    rfl
  · intro i hi
    rw [to_u32_to_i32, hkk, Int.toNat_ofNat]
    have e32 : (4294967296 : Nat) = 2 ^ 32 := by norm_num
    have e64 : (18446744073709551616 : Nat) = 2 ^ 64 := by norm_num
    rw [e32, e64, Nat.testBit_mod_two_pow, Nat.testBit_or, Nat.testBit_mod_two_pow,
      Nat.testBit_shiftLeft, Nat.testBit_shiftRight]
    by_cases hik : k ≤ i
    · have hm : (i + 64 - k) % 64 = i - k := by omega
      have hz : (to_u64 state).testBit (64 - k + i) = false :=
        Nat.testBit_lt_two_pow (lt_of_lt_of_le (by rw [← e64]; exact hx)
          (Nat.pow_le_pow_right (by norm_num) (by omega)))
      simp [hi, hik, hm, hz, (by omega : i < 64)]
    · have hm : (i + 64 - k) % 64 = 64 - k + i := by omega
      simp [hi, hik, hm, (by omega : i < 64)]

/-! ## Claims on the core -/

/-- C3: the lanes of `chi32_apply_cascading_hash_interleave`, read as unsigned
32-bit patterns, recombine to `(S + I) mod 2^64` and to `(A - O) mod 2^64`,
with `S`, `I` the unsigned images of selector and index,
`A = ((2^64 - 1 - S) * 0x9E3779B97F4A7C55) mod 2^64` and
`O = (2^64 - 1 - I) XOR (S AND A)`. -/
theorem interleave_lanes_recombine (selector index : Int) :
    to_u32 (interleave_lanes selector index).primary_pointer_high_i32 * 2 ^ 32
          + to_u32 (interleave_lanes selector index).primary_pointer_low_i32
        = (to_u64 selector + to_u64 index) % 2 ^ 64
      ∧ ((to_u32 (interleave_lanes selector index).alternate_pointer_high_i32 * 2 ^ 32
            + to_u32 (interleave_lanes selector index).alternate_pointer_low_i32 : Nat) : Int)
        = ((spec_alternate_anchor (to_u64 selector) : Int)
            - (spec_alternate_offset (to_u64 selector) (to_u64 index) : Int)) % 2 ^ 64 := by
  simp only [interleave_lanes, to_u32_to_i32, to_u64_complement, golden_ratio_prime_multiplier,
    Nat.shiftRight_eq_div_pow, spec_alternate_anchor, spec_alternate_offset]
  norm_num
  constructor
  · omega
  · generalize (((18446744073709551615 - to_u64 selector) * 11400714819323198549
        % 18446744073709551616 : Nat) : Int)
      - ((18446744073709551615 - to_u64 index ^^^ to_u64 selector
          &&& (18446744073709551615 - to_u64 selector) * 11400714819323198549
            % 18446744073709551616 : Nat) : Int) = d
    omega

/-- C4: for every combined state, of either sign, the rotation offset that
`chi32_derive_value_at` computes from it (the XOR of the three windows masked
with `0x3F`, converted to `int`) lies in `[0, 63]`; it is never negative. -/
theorem derive_offset_range (state : Int) :
    0 ≤ derive_offset (to_u64 state) ∧ derive_offset (to_u64 state) ≤ 63 := by
  rw [derive_offset_eq]
  omega

/-- C5 (evaluation at failing inputs): a rotate by 0 shifts right by the full
word width and has no defined result; for selector 16 and index 0 the second
`chi32_update_hash_value` call rotates by 0, and for selector 8 and index 0 the
final 64-bit rotation does, so `chi32_derive_value_at` returns no value there. -/
theorem derive_value_at_undefined_shift :
    chi32_update_hash_value 0 (interleave_lanes 16 0).alternate_pointer_low_i32
        = some 830483793
      ∧ update_rotate_amount 830483793 = 0
      ∧ chi32_update_hash_value 830483793 (interleave_lanes 16 0).alternate_pointer_high_i32
          = none
      ∧ chi32_apply_cascading_hash_interleave 16 0 = none
      ∧ chi32_derive_value_at 16 0 = none
      ∧ chi32_derive_value_at 8 0 = none := by
  decide

/-- C6 (counterexample): for selector 8 and index 0 the combined state is
computed and the amount passed to `chi32_internal_rotate_left_u64` is 0, outside
`[1, 63]`. -/
theorem rotate_u64_amount_zero_reached :
    ∃ state, chi32_apply_cascading_hash_interleave 8 0 = some state
      ∧ derive_offset (to_u64 state) = 0
      ∧ ¬ (1 ≤ derive_offset (to_u64 state) ∧ derive_offset (to_u64 state) ≤ 63) :=
  ⟨8115231133205466525, by decide, by decide, by decide⟩

/-- C6 (amended): whenever the combined state of a selector and an index is
computed, `chi32_derive_value_at` passes the offset `k` of that state to
`chi32_internal_rotate_left_u64` and returns the low 32 bits of what the rotate
gives, and `0 ≤ k ≤ 63`. -/
theorem rotate_u64_amount_range (selector index state : Int)
    (h : chi32_apply_cascading_hash_interleave selector index = some state) :
    chi32_derive_value_at selector index
        = (chi32_internal_rotate_left_u64 (to_u64 state) (derive_offset (to_u64 state))).map to_i32
      ∧ 0 ≤ derive_offset (to_u64 state) ∧ derive_offset (to_u64 state) ≤ 63 := by
  refine ⟨?_, derive_offset_bounds _⟩
  unfold chi32_derive_value_at
  rw [h]
  show (chi32_internal_rotate_left_u64 (to_u64 state) (derive_offset (to_u64 state))).bind
      (fun rotated_state_u64 => some (to_i32 rotated_state_u64)) = _
  cases chi32_internal_rotate_left_u64 (to_u64 state) (derive_offset (to_u64 state)) <;> rfl

/-- Instance of the amended C6 at selector 0 and index 0. -/
theorem rotate_u64_amount_range_witness :
    chi32_derive_value_at 0 0
        = (chi32_internal_rotate_left_u64 (to_u64 (-6710967503265632636))
            (derive_offset (to_u64 (-6710967503265632636)))).map to_i32
      ∧ 0 ≤ derive_offset (to_u64 (-6710967503265632636))
      ∧ derive_offset (to_u64 (-6710967503265632636)) ≤ 63 :=
  rotate_u64_amount_range 0 0 (-6710967503265632636) (by decide)

/-- C7 (counterexample): with `previous_hash = 17` the amount passed to
`chi32_internal_rotate_left_u32` is 0, outside `[1, 31]`, and the call has no
defined result. -/
theorem rotate_u32_amount_zero_reached :
    update_rotate_amount 17 = 0
      ∧ ¬ (1 ≤ update_rotate_amount 17 ∧ update_rotate_amount 17 ≤ 31)
      ∧ chi32_update_hash_value 17 5 = none := by
  decide

/-- C7 (amended): `chi32_update_hash_value` passes the amount `k`, the low 5
bits of `previous_hash XOR 0x8addb2d1`, to `chi32_internal_rotate_left_u32` and
continues with what the rotate gives; `0 ≤ k ≤ 31`, and `k = 0` exactly when
the low 5 bits of `previous_hash` are 17. -/
theorem rotate_u32_amount_range (previous_hash value : Int) :
    chi32_update_hash_value previous_hash value
        = (chi32_internal_rotate_left_u32 (to_u32 value) (update_rotate_amount previous_hash)).map
            (fun rotated => to_i32 (update_hash_tail (to_u32 previous_hash ^^^ 0x8addb2d1) rotated))
      ∧ 0 ≤ update_rotate_amount previous_hash ∧ update_rotate_amount previous_hash ≤ 31
      ∧ (update_rotate_amount previous_hash = 0 ↔ to_u32 previous_hash % 32 = 17) := by
  refine ⟨?_, ?_⟩
  · unfold chi32_update_hash_value
    show (chi32_internal_rotate_left_u32 (to_u32 value) (update_rotate_amount previous_hash)).bind
      (fun rotated =>
        some (to_i32 (update_hash_tail (to_u32 previous_hash ^^^ prime_number_1) rotated))) = _
    cases chi32_internal_rotate_left_u32 (to_u32 value) (update_rotate_amount previous_hash)
      <;> rfl
  · rw [update_rotate_amount_eq]
    have hx := xor_mod_two_pow (to_u32 previous_hash) 0x8addb2d1 5
    norm_num at hx
    rw [hx]
    have hy : to_u32 previous_hash % 32 < 32 := Nat.mod_lt _ (by norm_num)
    generalize to_u32 previous_hash % 32 = y at hy
    refine ⟨by omega, ?_, ?_⟩
    · have : y ^^^ 17 < 2 ^ 5 := Nat.xor_lt_two_pow (by norm_num; exact hy) (by norm_num)
      norm_num at this
      omega
    · interval_cases y <;> decide

/-- C8: `chi32_derive_value_at(0, 0)` and `chi32_derive_value_at(1, 0)` both
return a value, and the two values differ, as signed and as unsigned 32-bit
values. -/
theorem derive_value_at_zero_one_differ :
    ∃ a b, chi32_derive_value_at 0 0 = some a ∧ chi32_derive_value_at 1 0 = some b
      ∧ a ≠ b ∧ to_u32 a ≠ to_u32 b :=
  ⟨1390217541, -1377618932, by decide, by decide, by decide, by decide⟩

/-! ## The harness loops and the adapter -/

theorem generator_run_succ (n : Nat) (g : generator_globals) :
    generator_run (n + 1) g
      = (chi32_generator_bits g).bind (fun r =>
          (generator_run n r.2).bind (fun rs => some (r.1 :: rs.1, rs.2))) := by
  rw [generator_run]
  rfl

theorem shiftLeft_32_or (p v : Nat) (hv : v < 4294967296) :
    ((p <<< 32) % 18446744073709551616) ||| v = 4294967296 * (p % 4294967296) + v := by
  have h1 : (p <<< 32) % 18446744073709551616 = 2 ^ 32 * (p % 4294967296) := by
    rw [Nat.shiftLeft_eq]
    omega
  rw [h1, ← Nat.mul_add_lt_is_or (by norm_num; exact hv)]

/-! ## Counting mismatches -/

theorem compare_value_errors_found (i expected actual : Nat) (st : comparison_state) :
    (compare_value i expected actual st).errors_found
      = st.errors_found + (if actual ≠ expected then 1 else 0) := by
  unfold compare_value
  split <;> simp

theorem compare_value_reports (i expected actual : Nat) (st : comparison_state)
    (h1 : st.diagnostics.countP diagnostic.is_mismatch = min st.errors_found 5)
    (h2 : st.diagnostics.count diagnostic.suppressed = if st.errors_found > 5 then 1 else 0) :
    (compare_value i expected actual st).diagnostics.countP diagnostic.is_mismatch
        = min (compare_value i expected actual st).errors_found 5
      ∧ (compare_value i expected actual st).diagnostics.count diagnostic.suppressed
        = if (compare_value i expected actual st).errors_found > 5 then 1 else 0 := by
  unfold compare_value max_errors_to_print
  by_cases hne : actual ≠ expected
  · rw [if_pos hne]
    dsimp only
    by_cases hlt : st.errors_found < 5
    · rw [if_pos hlt, List.countP_append, List.count_append, h1, h2]
      have hm : List.countP diagnostic.is_mismatch [diagnostic.mismatch i expected actual] = 1 := rfl
      have hs : List.count diagnostic.suppressed [diagnostic.mismatch i expected actual] = 0 := by
        simp
      rw [hm, hs]
      constructor
      · omega
      · rw [if_neg (by omega), if_neg (by omega)]
    · rw [if_neg hlt]
      by_cases heq : st.errors_found = 5
      · rw [if_pos heq, List.countP_append, List.count_append, h1, h2]
        have hm : List.countP diagnostic.is_mismatch [diagnostic.suppressed] = 0 := rfl
        have hs : List.count diagnostic.suppressed [diagnostic.suppressed] = 1 := by decide
        rw [hm, hs]
        constructor
        · omega
        · rw [if_neg (by omega), if_pos (by omega)]
      · rw [if_neg heq, h1, h2]
        constructor
        · omega
        · rw [if_pos (by omega), if_pos (by omega)]
  · rw [if_neg hne]
    exact ⟨h1, h2⟩

theorem countP_range_succ (p : Nat → Bool) (n : Nat) :
    (List.range (n + 1)).countP p
      = (if p 0 then 1 else 0) + (List.range n).countP (fun j => p (j + 1)) := by
  rw [List.range_succ_eq_map, List.countP_cons, List.countP_map, Nat.add_comm]
  rfl

/-! ## The reference loader -/

theorem decode_bytes_eq_sum (b0 b1 b2 b3 : Nat)
    (h0 : b0 < 256) (h1 : b1 < 256) (h2 : b2 < 256) (h3 : b3 < 256) :
    decode_bytes b0 b1 b2 b3 = b0 + 256 * b1 + 65536 * b2 + 16777216 * b3 := by
  unfold decode_bytes
  have m1 : (b1 <<< 8) % 4294967296 = 2 ^ 8 * b1 := by rw [Nat.shiftLeft_eq]; omega
  have m2 : (b2 <<< 16) % 4294967296 = 2 ^ 16 * b2 := by rw [Nat.shiftLeft_eq]; omega
  have m3 : (b3 <<< 24) % 4294967296 = 2 ^ 24 * b3 := by rw [Nat.shiftLeft_eq]; omega
  rw [m1, m2, m3]
  have e1 : b0 ||| 2 ^ 8 * b1 = 2 ^ 8 * b1 + b0 := by
    rw [Nat.lor_comm]
    exact (Nat.mul_add_lt_is_or (by norm_num; exact h0) b1).symm
  have e2 : (2 ^ 8 * b1 + b0) ||| 2 ^ 16 * b2 = 2 ^ 16 * b2 + (2 ^ 8 * b1 + b0) := by
    rw [Nat.lor_comm]
    exact (Nat.mul_add_lt_is_or (by norm_num; omega) b2).symm
  have e3 : (2 ^ 16 * b2 + (2 ^ 8 * b1 + b0)) ||| 2 ^ 24 * b3
      = 2 ^ 24 * b3 + (2 ^ 16 * b2 + (2 ^ 8 * b1 + b0)) := by
    rw [Nat.lor_comm]
    exact (Nat.mul_add_lt_is_or (by norm_num; omega) b3).symm
  rw [e1, e2, e3]
  norm_num
  omega

theorem read_values_encode (values : List Nat) (h : ∀ v ∈ values, v < 4294967296) :
    read_values values.length (spec_encode_values values) = some values := by
  induction values with
  | nil => rfl
  | cons v values ih =>
    have hv : v < 4294967296 := h v (List.mem_cons_self _ _)
    have hd : decode_bytes (v % 256) (v / 256 % 256) (v / 65536 % 256) (v / 16777216 % 256)
        = v := by
      rw [decode_bytes_eq_sum _ _ _ _ (Nat.mod_lt _ (by norm_num)) (Nat.mod_lt _ (by norm_num))
        (Nat.mod_lt _ (by norm_num)) (Nat.mod_lt _ (by norm_num))]
      omega
    show read_values (values.length + 1)
      (v % 256 :: v / 256 % 256 :: v / 65536 % 256 :: v / 16777216 % 256
        :: spec_encode_values values) = _
    rw [read_values, ih (fun w hw => h w (List.mem_cons_of_mem _ hw)), hd]
    rfl

/-- C15: the loader decodes four file bytes `b0, b1, b2, b3` as
`b0 + 256*b1 + 65536*b2 + 16777216*b3`; reading back the little-endian encoding
of unsigned 32-bit values returns these values; and two groups of bytes that
decode to the same value are the same group. -/
theorem decode_bytes_little_endian (b0 b1 b2 b3 c0 c1 c2 c3 : Nat) (values : List Nat)
    (hb0 : b0 < 256) (hb1 : b1 < 256) (hb2 : b2 < 256) (hb3 : b3 < 256)
    (hc0 : c0 < 256) (hc1 : c1 < 256) (hc2 : c2 < 256) (hc3 : c3 < 256)
    (hvalues : ∀ v ∈ values, v < 4294967296) :
    decode_bytes b0 b1 b2 b3 = b0 + 256 * b1 + 65536 * b2 + 16777216 * b3
      ∧ read_values 1 [b0, b1, b2, b3] = some [b0 + 256 * b1 + 65536 * b2 + 16777216 * b3]
      ∧ read_values values.length (spec_encode_values values) = some values
      ∧ (decode_bytes b0 b1 b2 b3 = decode_bytes c0 c1 c2 c3
          → b0 = c0 ∧ b1 = c1 ∧ b2 = c2 ∧ b3 = c3) := by
  have hb := decode_bytes_eq_sum b0 b1 b2 b3 hb0 hb1 hb2 hb3
  have hc := decode_bytes_eq_sum c0 c1 c2 c3 hc0 hc1 hc2 hc3
  refine ⟨hb, ?_, read_values_encode values hvalues, ?_⟩
  · rw [read_values, read_values, hb]
    rfl
  · intro h
    rw [hb, hc] at h
    omega

/-- Instance of C15 at the bytes `85 2b dd 52` and `ff ff ff ff` and at the
values `0`, `1390217541` and `2^32 - 1`. -/
theorem decode_bytes_little_endian_witness :
    decode_bytes 0x85 0x2b 0xdd 0x52 = 0x85 + 256 * 0x2b + 65536 * 0xdd + 16777216 * 0x52
      ∧ read_values 1 [0x85, 0x2b, 0xdd, 0x52]
        = some [0x85 + 256 * 0x2b + 65536 * 0xdd + 16777216 * 0x52]
      ∧ read_values ([0, 1390217541, 4294967295] : List Nat).length
          (spec_encode_values [0, 1390217541, 4294967295]) = some [0, 1390217541, 4294967295]
      ∧ (decode_bytes 0x85 0x2b 0xdd 0x52 = decode_bytes 0xff 0xff 0xff 0xff
          → 0x85 = 0xff ∧ 0x2b = 0xff ∧ 0xdd = 0xff ∧ 0x52 = 0xff) :=
  decode_bytes_little_endian 0x85 0x2b 0xdd 0x52 0xff 0xff 0xff 0xff [0, 1390217541, 4294967295]
    (by decide) (by decide) (by decide) (by decide) (by decide) (by decide) (by decide)
    (by decide) (by decide)

/-! ## The main loop of the regression harness -/

theorem main_loop_reports :
    ∀ (test_cases : List parsed_test_case) (all_overall_tests_passed : Bool)
      (reports : List case_report),
      (∀ c ∈ test_cases, (report_for_case c).isSome) →
      ∃ all' reports', main_loop test_cases all_overall_tests_passed reports
            = some (all', reports')
        ∧ reports'.map some = reports.map some ++ test_cases.map report_for_case
        ∧ (all' = true ↔ all_overall_tests_passed = true
            ∧ ∀ c ∈ test_cases, report_for_case c = some case_report.pass) := by
  intro test_cases
  induction test_cases with
  | nil =>
    intro all reports _
    exact ⟨all, reports, rfl, by simp, by simp⟩
  | cons c rest ih =>
    intro all reports hdef
    have hrest : ∀ c' ∈ rest, (report_for_case c').isSome :=
      fun c' hc' => hdef c' (List.mem_cons_of_mem _ hc')
    have hc := hdef c (List.mem_cons_self _ _)
    rw [main_loop]
    unfold report_for_case at hc
    rcases hload : load_binary_data_for_test_case c with ⟨ok, test_case⟩
    rw [hload] at hc
    have hrep : report_for_case c =
        (match ((ok, test_case) : Bool × canonical_test_case_t) with
          | (false, _) => some case_report.load_failed
          | (true, test_case) =>
            (run_test_by_strategy test_case).map (fun current_test_passed =>
              if current_test_passed then case_report.pass else case_report.fail)) := by
      unfold report_for_case
      rw [hload]
    cases ok with
    | false =>
      obtain ⟨all', reports', hrun, hreports, hall⟩ :=
        ih false (reports ++ [case_report.load_failed]) hrest
      refine ⟨all', reports', hrun, ?_, ?_⟩
      · rw [hreports, List.map_cons, hrep]
        simp
      · rw [hall]
        simp [hrep]
    | true =>
      simp only at hc hrep
      cases hp : run_test_by_strategy test_case with
      | none => rw [hp] at hc; cases hc
      | some passed =>
        rw [hp] at hrep
        simp only [Option.bind_eq_bind, Option.some_bind, Option.map_some'] at hrep ⊢
        cases passed with
        | true =>
          obtain ⟨all', reports', hrun, hreports, hall⟩ :=
            ih all (reports ++ [case_report.pass]) hrest
          refine ⟨all', reports', by simpa [hp] using hrun, ?_, ?_⟩
          · rw [hreports, List.map_cons, hrep]
            simp
          · rw [hall]
            simp [hrep]
        | false =>
          obtain ⟨all', reports', hrun, hreports, hall⟩ :=
            ih false (reports ++ [case_report.fail]) hrest
          refine ⟨all', reports', by simpa [hp] using hrun, ?_, ?_⟩
          · rw [hreports, List.map_cons, hrep]
            simp
          · rw [hall]
            simp [hrep]

/-! ## The fold of the four lanes -/

/-- C18 (counterexample): for the state `2^28` bit 28 of the state is set and
bit 0 of the mid window is not, so the mid window does not start at bit 28. -/
theorem mid_window_not_from_bit_28 :
    (268435456 : Nat).testBit (28 + 0) = true
      ∧ (mid_bits_for_xor 268435456).testBit 0 = false
      ∧ ¬ (∀ j, j < 32 →
          (mid_bits_for_xor 268435456).testBit j = (268435456 : Nat).testBit (28 + j)) := by
  refine ⟨by decide, by decide, ?_⟩
  intro h
  have h0 := h 0 (by norm_num)
  revert h0
  decide

/-- C18 (amended): the windows of `chi32_derive_value_at` are the ones its
offset is computed from; bit `j` of the mid window is bit `29 + j` of the
state for `j < 32` (bits 29 through 60), and bit `j` of the high window is bit
`58 + j` of the state for `j < 6` (bits 58 through 63); all other bits of the
two windows are zero. -/
theorem extraction_windows (state : Int) (j : Nat) :
    derive_offset (to_u64 state)
        = to_i32 ((low_bits_for_xor (to_u64 state) ^^^ mid_bits_for_xor (to_u64 state)
            ^^^ high_bits_for_xor (to_u64 state)) &&& 0x3F)
      ∧ (mid_bits_for_xor (to_u64 state)).testBit j
        = (decide (j < 32) && (to_u64 state).testBit (29 + j))
      ∧ (high_bits_for_xor (to_u64 state)).testBit j
        = (decide (j < 6) && (to_u64 state).testBit (58 + j)) := by
  have e32 : (4294967296 : Nat) = 2 ^ 32 := by norm_num
  refine ⟨rfl, ?_, ?_⟩
  · unfold mid_bits_for_xor
    rw [e32, Nat.testBit_mod_two_pow, Nat.testBit_shiftRight]
  · unfold high_bits_for_xor
    rw [e32, Nat.testBit_mod_two_pow, Nat.testBit_shiftRight]
    by_cases h6 : j < 6
    · simp [h6, (by omega : j < 32)]
    · have hz : (to_u64 state).testBit (58 + j) = false :=
        Nat.testBit_lt_two_pow (lt_of_lt_of_le (to_u64_lt state)
          (by
            have : (18446744073709551616 : Nat) = 2 ^ 64 := by norm_num
            rw [this]
            exact Nat.pow_le_pow_right (by norm_num) (by omega)))
      simp [h6, hz]

/-! ## Rotation round trip -/

theorem rotate_round_trip (n x k : Nat) (hx : x < 2 ^ n) (h1 : 1 ≤ k) (h2 : k < n) :
    ((((x <<< k) % 2 ^ n ||| x >>> (n - k)) <<< (n - k)) % 2 ^ n)
      ||| (((x <<< k) % 2 ^ n ||| x >>> (n - k)) >>> (n - (n - k))) = x := by
  have hxj : ∀ m, n ≤ m → x.testBit m = false := fun m hm =>
    Nat.testBit_lt_two_pow (lt_of_lt_of_le hx (Nat.pow_le_pow_right (by norm_num) hm))
  have hnk : n - (n - k) = k := by omega
  rw [hnk]
  apply Nat.eq_of_testBit_eq
  intro j
  simp only [Nat.testBit_or, Nat.testBit_mod_two_pow, Nat.testBit_shiftLeft,
    Nat.testBit_shiftRight]
  by_cases c1 : j < n - k
  · have a1 : ¬ (j ≥ n - k) := by omega
    have a2 : k + j < n := by omega
    have a3 : k + j ≥ k := by omega
    have a4 : k + j - k = j := by omega
    have a5 := hxj (n - k + (k + j)) (by omega)
    simp [a1, a2, a3, a4, a5, (by omega : j < n)]
  · by_cases c2 : j < n
    · have a1 : j ≥ n - k := by omega
      have a2 : ¬ (j - (n - k) ≥ k) := by omega
      have a3 : n - k + (j - (n - k)) = j := by omega
      have a4 : ¬ (k + j < n) := by omega
      have a5 := hxj (n - k + (k + j)) (by omega)
      simp [a1, a2, a3, a4, a5, c2, (by omega : j - (n - k) < n)]
    · have a4 : ¬ (k + j < n) := by omega
      have a5 := hxj (n - k + (k + j)) (by omega)
      have a6 := hxj j (by omega)
      simp [c2, a4, a5, a6]

/-- C19: for every 32-bit `x` and `k` in `[1, 31]`, rotating `x` left by `k` and
then by `32 - k` with `chi32_internal_rotate_left_u32` returns `x`; for every
64-bit `x` and `k` in `[1, 63]`, rotating left by `k` and then by `64 - k` with
`chi32_internal_rotate_left_u64` returns `x`. -/
theorem rotate_left_round_trip (x32 x64 : Nat) (k32 k64 : Int)
    (hx32 : x32 < 2 ^ 32) (hk32 : 1 ≤ k32 ∧ k32 ≤ 31)
    (hx64 : x64 < 2 ^ 64) (hk64 : 1 ≤ k64 ∧ k64 ≤ 63) :
    (chi32_internal_rotate_left_u32 x32 k32).bind
          (fun y => chi32_internal_rotate_left_u32 y (32 - k32)) = some x32
      ∧ (chi32_internal_rotate_left_u64 x64 k64).bind
          (fun y => chi32_internal_rotate_left_u64 y (64 - k64)) = some x64 := by
  constructor
  · obtain ⟨k, rfl⟩ : ∃ k : Nat, k32 = (k : Int) := ⟨k32.toNat, by omega⟩
    have h1 : 1 ≤ k := by omega
    have h2 : k ≤ 31 := by omega
    have hc : (32 : Int) - (k : Int) = ((32 - k : Nat) : Int) := by omega
    rw [rotate_left_u32_pos x32 k h1 h2, Option.some_bind, hc,
      rotate_left_u32_pos _ (32 - k) (by omega) (by omega)]
    have := rotate_round_trip 32 x32 k hx32 h1 (by omega)
    norm_num at this ⊢
    exact this
  · obtain ⟨k, rfl⟩ : ∃ k : Nat, k64 = (k : Int) := ⟨k64.toNat, by omega⟩
    have h1 : 1 ≤ k := by omega
    have h2 : k ≤ 63 := by omega
    have hc : (64 : Int) - (k : Int) = ((64 - k : Nat) : Int) := by omega
    rw [rotate_left_u64_pos x64 k h1 h2, Option.some_bind, hc,
      rotate_left_u64_pos _ (64 - k) (by omega) (by omega)]
    have := rotate_round_trip 64 x64 k hx64 h1 (by omega)
    norm_num at this ⊢
    exact this

/-- Instance of C19 at `x = 0x80000001`, `k = 1` and at `x = 2^63 + 1`, `k = 63`. -/
theorem rotate_left_round_trip_witness :
    (chi32_internal_rotate_left_u32 2147483649 1).bind
          (fun y => chi32_internal_rotate_left_u32 y (32 - 1)) = some 2147483649
      ∧ (chi32_internal_rotate_left_u64 9223372036854775809 63).bind
          (fun y => chi32_internal_rotate_left_u64 y (64 - 63)) = some 9223372036854775809 :=
  rotate_left_round_trip 2147483649 9223372036854775809 1 63 (by norm_num) (by decide)
    (by norm_num) (by decide)

/-! ## The multiplication steps -/

theorem mul_mod_bijOn (M c cinv : Nat) (hM : 0 < M) (h : (c * cinv) % M = 1 % M) :
    Set.BijOn (fun x => (x * c) % M) (Set.Iio M) (Set.Iio M) := by
  have hinv : ∀ x, x * c * cinv ≡ x [MOD M] := by
    intro x
    have h1 : c * cinv ≡ 1 [MOD M] := h
    have h2 := Nat.ModEq.mul_left x h1
    rw [Nat.mul_one, ← Nat.mul_assoc] at h2
    exact h2
  refine ⟨?_, ?_, ?_⟩
  · intro x _
    exact Nat.mod_lt _ hM
  · intro x hx y hy hxy
    have h1 : x * c ≡ y * c [MOD M] := hxy
    have h2 : x * c * cinv ≡ y * c * cinv [MOD M] := Nat.ModEq.mul_right cinv h1
    have h3 : x ≡ y [MOD M] := ((hinv x).symm.trans h2).trans (hinv y)
    exact Nat.ModEq.eq_of_lt_of_lt h3 hx hy
  · intro y hy
    refine ⟨(y * cinv) % M, Nat.mod_lt _ hM, ?_⟩
    show (y * cinv) % M * c % M = y
    have h1 : (y * cinv) % M * c ≡ y * cinv * c [MOD M] :=
      Nat.ModEq.mul_right c (Nat.mod_modEq _ _)
    have h2 : y * cinv * c ≡ y [MOD M] := by
      have : y * cinv * c = y * c * cinv := by ring
      rw [this]
      exact hinv y
    have h3 : (y * cinv) % M * c % M = y % M := h1.trans h2
    rw [h3]
    exact Nat.mod_eq_of_lt hy

theorem multiplication_steps (hash_u32 rotated : Nat) (selector index : Int) :
    update_hash_tail hash_u32 rotated
        = mul_u32 prime_number_6
            ((fun h => h ^^^ (h >>> 16))
              (mul_u32 prime_number_5
                ((fun h => (h + (h >>> 29)) % 4294967296)
                  ((fun h => h ^^^ (h >>> 7))
                    (mul_u32 prime_number_4
                      ((fun h => h ^^^ (h >>> 15))
                        (mul_u32 prime_number_3
                          ((hash_u32 + (prime_number_2 ^^^ rotated)) % 4294967296))))))))
      ∧ chi32_apply_cascading_hash_interleave selector index
        = (interleave_accumulator (interleave_lanes selector index)).map
            (fun acc => to_i64 (mul_u64 final_step_prime_multiplier acc)) := by
  constructor
  · rfl
  · unfold chi32_apply_cascading_hash_interleave
    cases interleave_accumulator (interleave_lanes selector index) <;> rfl

/-- C20: the four multipliers of `chi32_update_hash_value` and the two of
`chi32_apply_cascading_hash_interleave` are odd, each multiplication step is a
bijection of the 32-bit (respectively 64-bit) words onto themselves, and
distinct final accumulators give distinct combined states. -/
theorem multiplication_steps_are_bijections :
    (prime_number_3 % 2 = 1 ∧ prime_number_4 % 2 = 1 ∧ prime_number_5 % 2 = 1
        ∧ prime_number_6 % 2 = 1 ∧ golden_ratio_prime_multiplier % 2 = 1
        ∧ final_step_prime_multiplier % 2 = 1)
      ∧ Set.BijOn (mul_u32 prime_number_3) (Set.Iio (2 ^ 32)) (Set.Iio (2 ^ 32))
      ∧ Set.BijOn (mul_u32 prime_number_4) (Set.Iio (2 ^ 32)) (Set.Iio (2 ^ 32))
      ∧ Set.BijOn (mul_u32 prime_number_5) (Set.Iio (2 ^ 32)) (Set.Iio (2 ^ 32))
      ∧ Set.BijOn (mul_u32 prime_number_6) (Set.Iio (2 ^ 32)) (Set.Iio (2 ^ 32))
      ∧ Set.BijOn (mul_u64 golden_ratio_prime_multiplier) (Set.Iio (2 ^ 64)) (Set.Iio (2 ^ 64))
      ∧ Set.BijOn (mul_u64 final_step_prime_multiplier) (Set.Iio (2 ^ 64)) (Set.Iio (2 ^ 64))
      ∧ Set.InjOn (fun acc => to_i64 (mul_u64 final_step_prime_multiplier acc))
          (Set.Iio (2 ^ 64)) := by
  have e32 : (2 : Nat) ^ 32 = 4294967296 := by norm_num
  have e64 : (2 : Nat) ^ 64 = 18446744073709551616 := by norm_num
  have b3 := mul_mod_bijOn 4294967296 prime_number_3 2253806523 (by norm_num) (by decide)
  have b4 := mul_mod_bijOn 4294967296 prime_number_4 3794080163 (by norm_num) (by decide)
  have b5 := mul_mod_bijOn 4294967296 prime_number_5 3452195079 (by norm_num) (by decide)
  have b6 := mul_mod_bijOn 4294967296 prime_number_6 4275263413 (by norm_num) (by decide)
  have bg := mul_mod_bijOn 18446744073709551616 golden_ratio_prime_multiplier
    6236490470931210493 (by norm_num) (by decide)
  have bf := mul_mod_bijOn 18446744073709551616 final_step_prime_multiplier
    2829980169249372315 (by norm_num) (by decide)
  rw [e32, e64]
  refine ⟨by decide, b3, b4, b5, b6, bg, bf, ?_⟩
  intro a ha b hb hab
  apply bf.injOn ha hb
  have h1 := congrArg to_u64 hab
  simp only [to_u64_to_i64] at h1
  have ma := Nat.mod_lt (a * final_step_prime_multiplier)
    (by norm_num : 0 < 18446744073709551616)
  have mb := Nat.mod_lt (b * final_step_prime_multiplier)
    (by norm_num : 0 < 18446744073709551616)
  unfold mul_u64 at h1
  rw [Nat.mod_eq_of_lt ma, Nat.mod_eq_of_lt mb] at h1
  exact h1

/-! ## The offset on the full word -/

theorem mod_u32_mod_64 (x : Nat) : x % 4294967296 % 64 = x % 64 := by omega

theorem xor_mod_64 (a b : Nat) : (a ^^^ b) % 64 = a % 64 ^^^ b % 64 := by
  have h := xor_mod_two_pow a b 6
  norm_num at h
  exact h

theorem derive_offset_fields (s : Nat) :
    derive_offset s = ((s % 64 ^^^ s / 2 ^ 29 % 64 ^^^ s / 2 ^ 58 % 64 : Nat) : Int) := by
  rw [derive_offset_eq, xor_mod_64, xor_mod_64, mod_u32_mod_64, mod_u32_mod_64, mod_u32_mod_64,
    Nat.shiftRight_eq_div_pow, Nat.shiftRight_eq_div_pow]

/-- C21: the rotation offset of `chi32_derive_value_at` is
`(state XOR (state >> 29) XOR (state >> 58)) AND 63` on the full 64-bit word,
which is the XOR of the three 6-bit fields at bits `[0, 6)`, `[29, 35)` and
`[58, 64)` of the state; two states that agree on these three fields have the
same offset. -/
theorem derive_offset_full_word (state other : Int) :
    derive_offset (to_u64 state)
        = (((to_u64 state ^^^ (to_u64 state >>> 29) ^^^ (to_u64 state >>> 58)) &&& 63 : Nat) : Int)
      ∧ derive_offset (to_u64 state)
        = ((to_u64 state % 64 ^^^ to_u64 state / 2 ^ 29 % 64 ^^^ to_u64 state / 2 ^ 58 % 64 : Nat)
            : Int)
      ∧ (to_u64 state % 64 = to_u64 other % 64
          → to_u64 state / 2 ^ 29 % 64 = to_u64 other / 2 ^ 29 % 64
          → to_u64 state / 2 ^ 58 % 64 = to_u64 other / 2 ^ 58 % 64
          → derive_offset (to_u64 state) = derive_offset (to_u64 other)) := by
  refine ⟨?_, derive_offset_fields _, ?_⟩
  · have h := Nat.and_pow_two_sub_one_eq_mod
      (to_u64 state ^^^ (to_u64 state >>> 29) ^^^ (to_u64 state >>> 58)) 6
    norm_num at h
    rw [h, derive_offset_fields, xor_mod_64, xor_mod_64, Nat.shiftRight_eq_div_pow,
      Nat.shiftRight_eq_div_pow]
  · intro h1 h2 h3
    rw [derive_offset_fields, derive_offset_fields, h1, h2, h3]

/-- Instance of C21: the states `0x21` and `0x421`, which differ in bit 10 only,
have the same three fields and the same offset. -/
theorem derive_offset_full_word_witness :
    derive_offset (to_u64 33) = derive_offset (to_u64 1057) :=
  (derive_offset_full_word 33 1057).2.2 (by decide) (by decide) (by decide)

/-! ## The first call of the fold -/

theorem xorshift_injective (s x y : Nat) (hs : 1 ≤ s) (hx : x < 4294967296) (hy : y < 4294967296)
    (h : x ^^^ (x >>> s) = y ^^^ (y >>> s)) : x = y := by
  have e32 : (4294967296 : Nat) = 2 ^ 32 := by norm_num
  have top : ∀ z, z < 4294967296 → ∀ j, 32 ≤ j → z.testBit j = false := by
    intro z hz j hj
    exact Nat.testBit_lt_two_pow (lt_of_lt_of_le (by rw [← e32]; exact hz)
      (Nat.pow_le_pow_right (by norm_num) hj))
  have key : ∀ n j, 32 ≤ j + n → x.testBit j = y.testBit j := by
    intro n
    induction n with
    | zero =>
      intro j hj
      rw [top x hx j (by omega), top y hy j (by omega)]
    | succ n ih =>
      intro j hj
      by_cases hjn : 32 ≤ j + n
      · exact ih j hjn
      · have hb := congrArg (fun z => z.testBit j) h
        simp only [Nat.testBit_xor, Nat.testBit_shiftRight] at hb
        have hup := ih (s + j) (by omega)
        rw [hup] at hb
        revert hb
        cases x.testBit j <;> cases y.testBit j <;> cases y.testBit (s + j) <;> simp
  exact Nat.eq_of_testBit_eq (fun j => key 32 j (by omega))

theorem mul_u32_injective (c cinv a b : Nat) (h : (c * cinv) % 4294967296 = 1 % 4294967296)
    (ha : a < 4294967296) (hb : b < 4294967296)
    (heq : (a * c) % 4294967296 = (b * c) % 4294967296) : a = b :=
  (mul_mod_bijOn 4294967296 c cinv (by norm_num) h).injOn ha hb heq

theorem hash_before_shift_add_injective (h a b : Nat) (ha : a < 4294967296)
    (hb : b < 4294967296)
    (heq : hash_before_shift_add h a = hash_before_shift_add h b) : a = b := by
  have e32 : (4294967296 : Nat) = 2 ^ 32 := by norm_num
  have pos : 0 < 4294967296 := by norm_num
  unfold hash_before_shift_add at heq
  simp only [shift_offset_1, shift_offset_2] at heq
  have lt_xs : ∀ z s, z < 4294967296 → z ^^^ (z >>> s) < 4294967296 := by
    intro z s hz
    rw [e32] at hz ⊢
    refine Nat.xor_lt_two_pow hz (lt_of_le_of_lt ?_ hz)
    rw [Nat.shiftRight_eq_div_pow]
    exact Nat.div_le_self _ _
  have h4 := xorshift_injective 7 _ _ (by norm_num) (Nat.mod_lt _ pos) (Nat.mod_lt _ pos) heq
  have h3 := mul_u32_injective prime_number_4 3794080163 _ _ (by decide)
    (lt_xs _ 15 (Nat.mod_lt _ pos)) (lt_xs _ 15 (Nat.mod_lt _ pos)) h4
  have h2 := xorshift_injective 15 _ _ (by norm_num) (Nat.mod_lt _ pos) (Nat.mod_lt _ pos) h3
  have h1 := mul_u32_injective prime_number_3 2253806523 _ _ (by decide)
    (Nat.mod_lt _ pos) (Nat.mod_lt _ pos) h2
  have xa : prime_number_2 ^^^ a < 4294967296 := by
    rw [e32] at ha ⊢
    exact Nat.xor_lt_two_pow (by decide) ha
  have xb : prime_number_2 ^^^ b < 4294967296 := by
    rw [e32] at hb ⊢
    exact Nat.xor_lt_two_pow (by decide) hb
  have h0 : prime_number_2 ^^^ a = prime_number_2 ^^^ b := by
    have m1 : (h + (prime_number_2 ^^^ a)) % 4294967296
        = (h + (prime_number_2 ^^^ b)) % 4294967296 := h1
    omega
  exact Nat.xor_right_injective h0

theorem rotate_left_u32_injective (x y r : Nat) (k : Int) (hx : x < 4294967296)
    (hy : y < 4294967296)
    (h1 : chi32_internal_rotate_left_u32 x k = some r)
    (h2 : chi32_internal_rotate_left_u32 y k = some r) : x = y := by
  have hk : 1 ≤ k ∧ k ≤ 31 := by
    by_cases c1 : 0 ≤ k ∧ k < 32
    · by_cases c0 : k = 0
      · subst c0
        rw [rotate_left_u32_zero] at h1
        cases h1
      · omega
    · simp [chi32_internal_rotate_left_u32, shl_u32, c1] at h1
  obtain ⟨n, rfl⟩ : ∃ n : Nat, k = (n : Int) := ⟨k.toNat, by omega⟩
  have hn1 : 1 ≤ n := by omega
  have hn2 : n ≤ 31 := by omega
  rw [rotate_left_u32_pos _ _ hn1 hn2, Option.some.injEq] at h1 h2
  have e32 : (4294967296 : Nat) = 2 ^ 32 := by norm_num
  have rx := rotate_round_trip 32 x n (by rw [← e32]; exact hx) hn1 (by omega)
  have ry := rotate_round_trip 32 y n (by rw [← e32]; exact hy) hn1 (by omega)
  rw [← e32] at rx ry
  rw [h1] at rx
  rw [h2] at ry
  rw [← rx, ← ry]

theorem rotate_left_u32_lt (x r : Nat) (k : Int) (hx : x < 4294967296)
    (h : chi32_internal_rotate_left_u32 x k = some r) : r < 4294967296 := by
  have hk : 1 ≤ k ∧ k ≤ 31 := by
    by_cases c1 : 0 ≤ k ∧ k < 32
    · by_cases c0 : k = 0
      · subst c0
        rw [rotate_left_u32_zero] at h
        cases h
      · omega
    · simp [chi32_internal_rotate_left_u32, shl_u32, c1] at h
  obtain ⟨n, rfl⟩ : ∃ n : Nat, k = (n : Int) := ⟨k.toNat, by omega⟩
  rw [rotate_left_u32_pos _ _ (by omega) (by omega), Option.some.injEq] at h
  have e32 : (4294967296 : Nat) = 2 ^ 32 := by norm_num
  rw [← h, e32]
  refine Nat.or_lt_two_pow (Nat.mod_lt _ (by norm_num)) ?_
  rw [Nat.shiftRight_eq_div_pow, ← e32]
  exact lt_of_le_of_lt (Nat.div_le_self _ _) hx

/-- C22: `chi32_update_hash_value` is not injective in its value argument: with
`previous_hash = 0` the two distinct values `993361064` and `1971830822` give the
same result.  The hash is `0` for the first and `0xFFFFFFF9` for the second just
before `hash += hash >> 29`, and that step maps both to `0`; for a fixed
`previous_hash`, the statements before that step are injective in the value:
two values whose hashes agree just before the step have the same 32-bit
pattern. -/
theorem update_hash_value_not_injective (previous_hash v1 v2 : Int) (r1 r2 : Nat)
    (hr1 : chi32_internal_rotate_left_u32 (to_u32 v1) (update_rotate_amount previous_hash)
      = some r1)
    (hr2 : chi32_internal_rotate_left_u32 (to_u32 v2) (update_rotate_amount previous_hash)
      = some r2)
    (heq : hash_before_shift_add (to_u32 previous_hash ^^^ prime_number_1) r1
      = hash_before_shift_add (to_u32 previous_hash ^^^ prime_number_1) r2) :
    (∃ h, chi32_update_hash_value 0 993361064 = some h
        ∧ chi32_update_hash_value 0 1971830822 = some h
        ∧ to_u32 993361064 ≠ to_u32 1971830822)
      ∧ (∀ h r, update_hash_tail h r
          = hash_after_shift_add (shift_add (hash_before_shift_add h r)))
      ∧ (∃ ra rb,
          chi32_internal_rotate_left_u32 (to_u32 993361064) (update_rotate_amount 0) = some ra
          ∧ chi32_internal_rotate_left_u32 (to_u32 1971830822) (update_rotate_amount 0) = some rb
          ∧ hash_before_shift_add (to_u32 0 ^^^ prime_number_1) ra = 0
          ∧ hash_before_shift_add (to_u32 0 ^^^ prime_number_1) rb = 0xFFFFFFF9)
      ∧ shift_add 0 = 0
      ∧ shift_add 0xFFFFFFF9 = 0
      ∧ to_u32 v1 = to_u32 v2 := by
  refine ⟨⟨0, by decide, by decide, by decide⟩, fun _ _ => rfl,
    ⟨4182799978, 2152524559, by decide, by decide, by decide, by decide⟩, by decide, by decide,
    ?_⟩
  have b1 := rotate_left_u32_lt _ _ _ (to_u32_lt v1) hr1
  have b2 := rotate_left_u32_lt _ _ _ (to_u32_lt v2) hr2
  have hr := hash_before_shift_add_injective _ r1 r2 b1 b2 heq
  rw [← hr] at hr2
  exact rotate_left_u32_injective _ _ r1 _ (to_u32_lt v1) (to_u32_lt v2) hr1 hr2

/-- Instance of C22 at `previous_hash = 0` and the value 5 on both sides. -/
theorem update_hash_value_not_injective_witness :
    (∃ h, chi32_update_hash_value 0 993361064 = some h
        ∧ chi32_update_hash_value 0 1971830822 = some h
        ∧ to_u32 993361064 ≠ to_u32 1971830822)
      ∧ (∀ h r, update_hash_tail h r
          = hash_after_shift_add (shift_add (hash_before_shift_add h r)))
      ∧ (∃ ra rb,
          chi32_internal_rotate_left_u32 (to_u32 993361064) (update_rotate_amount 0) = some ra
          ∧ chi32_internal_rotate_left_u32 (to_u32 1971830822) (update_rotate_amount 0) = some rb
          ∧ hash_before_shift_add (to_u32 0 ^^^ prime_number_1) ra = 0
          ∧ hash_before_shift_add (to_u32 0 ^^^ prime_number_1) rb = 0xFFFFFFF9)
      ∧ shift_add 0 = 0
      ∧ shift_add 0xFFFFFFF9 = 0
      ∧ to_u32 5 = to_u32 5 :=
  update_hash_value_not_injective 0 5 5 655360 655360 (by decide) (by decide) rfl

/-! ## The values returned and the checked forms -/

theorem rotate_left_u32_val_of_checked (x : Nat) (k : Int) (v : Nat)
    (h : chi32_internal_rotate_left_u32 x k = some v) :
    chi32_internal_rotate_left_u32_val x k = v := by
  unfold chi32_internal_rotate_left_u32 shl_u32 shr_u32 at h
  unfold chi32_internal_rotate_left_u32_val
  by_cases c1 : 0 ≤ k ∧ k < 32
  · by_cases c2 : 0 ≤ 32 - k ∧ 32 - k < 32
    · rw [if_pos c1, if_pos c2] at h
      exact Option.some.inj h
    · rw [if_pos c1, if_neg c2] at h
      cases h
  · rw [if_neg c1] at h
    cases h

theorem rotate_left_u64_val_of_checked (x : Nat) (k : Int) (v : Nat)
    (h : chi32_internal_rotate_left_u64 x k = some v) :
    chi32_internal_rotate_left_u64_val x k = v := by
  unfold chi32_internal_rotate_left_u64 shl_u64 shr_u64 at h
  unfold chi32_internal_rotate_left_u64_val
  by_cases c1 : 0 ≤ k ∧ k < 64
  · by_cases c2 : 0 ≤ 64 - k ∧ 64 - k < 64
    · rw [if_pos c1, if_pos c2] at h
      exact Option.some.inj h
    · rw [if_pos c1, if_neg c2] at h
      cases h
  · rw [if_neg c1] at h
    cases h

theorem update_hash_value_val_of_checked (previous_hash value r : Int)
    (h : chi32_update_hash_value previous_hash value = some r) :
    chi32_update_hash_value_val previous_hash value = r := by
  unfold chi32_update_hash_value at h
  simp only [] at h
  cases hr : chi32_internal_rotate_left_u32 (to_u32 value) (update_rotate_amount previous_hash) with
  | none =>
    rw [hr] at h
    cases h
  | some rotated =>
    rw [hr] at h
    unfold chi32_update_hash_value_val
    simp only []
    rw [rotate_left_u32_val_of_checked _ _ _ hr]
    exact Option.some.inj h

theorem interleave_accumulator_val_of_checked (l : Lanes) (a : Nat)
    (h : interleave_accumulator l = some a) : interleave_accumulator_val l = a := by
  unfold interleave_accumulator at h
  cases h1 : chi32_update_hash_value 0 l.alternate_pointer_low_i32 with
  | none =>
    rw [h1] at h
    cases h
  | some r1 =>
    rw [h1] at h
    simp only [Option.bind_eq_bind, Option.some_bind] at h
    cases h2 : chi32_update_hash_value (to_i32 (to_u32 r1)) l.alternate_pointer_high_i32 with
    | none =>
      rw [h2] at h
      cases h
    | some r2 =>
      rw [h2] at h
      simp only [Option.some_bind] at h
      cases h3 : chi32_update_hash_value
          (to_i32 (to_u32 r2 ^^^ ((to_u32 r1 <<< interleave_bit_offset) % 18446744073709551616)))
          l.primary_pointer_high_i32 with
      | none =>
        rw [h3] at h
        cases h
      | some r3 =>
        rw [h3] at h
        simp only [Option.some_bind] at h
        cases h4 : chi32_update_hash_value
            (to_i32 (to_u32 r3 ^^^
              (((to_u32 r2 ^^^ ((to_u32 r1 <<< interleave_bit_offset) % 18446744073709551616))
                <<< interleave_bit_offset) % 18446744073709551616)))
            l.primary_pointer_low_i32 with
        | none =>
          rw [h4] at h
          cases h
        | some r4 =>
          rw [h4] at h
          simp only [Option.some_bind] at h
          unfold interleave_accumulator_val
          simp only []
          rw [update_hash_value_val_of_checked _ _ _ h1, update_hash_value_val_of_checked _ _ _ h2,
            update_hash_value_val_of_checked _ _ _ h3, update_hash_value_val_of_checked _ _ _ h4]
          exact Option.some.inj h

theorem cascading_hash_interleave_val_of_checked (selector index state : Int)
    (h : chi32_apply_cascading_hash_interleave selector index = some state) :
    chi32_apply_cascading_hash_interleave_val selector index = state := by
  unfold chi32_apply_cascading_hash_interleave at h
  cases ha : interleave_accumulator (interleave_lanes selector index) with
  | none =>
    rw [ha] at h
    cases h
  | some a =>
    rw [ha] at h
    unfold chi32_apply_cascading_hash_interleave_val
    simp only []
    rw [interleave_accumulator_val_of_checked _ _ ha]
    exact Option.some.inj h

theorem derive_value_at_val_of_checked (selector index value : Int)
    (h : chi32_derive_value_at selector index = some value) :
    chi32_derive_value_at_val selector index = value := by
  unfold chi32_derive_value_at at h
  cases hs : chi32_apply_cascading_hash_interleave selector index with
  | none =>
    rw [hs] at h
    cases h
  | some state =>
    rw [hs] at h
    simp only [Option.bind_eq_bind, Option.some_bind] at h
    cases hr : chi32_internal_rotate_left_u64 (to_u64 state) (derive_offset (to_u64 state)) with
    | none =>
      rw [hr] at h
      cases h
    | some rotated =>
      rw [hr] at h
      unfold chi32_derive_value_at_val
      simp only []
      rw [cascading_hash_interleave_val_of_checked _ _ _ hs,
        rotate_left_u64_val_of_checked _ _ _ hr]
      exact Option.some.inj h


theorem rotate_left_u32_val_eq_spec (x k : Nat) :
    chi32_internal_rotate_left_u32_val x (k : Int) = spec_rotate_left_32 x k := by
  have e : ((32 : Int) - (k : Int)).toNat = 32 - k := by omega
  unfold chi32_internal_rotate_left_u32_val spec_rotate_left_32
  rw [e, Int.toNat_ofNat, Nat.shiftLeft_eq, Nat.shiftRight_eq_div_pow]
  norm_num

theorem rotate_left_u64_val_eq_spec (x k : Nat) :
    chi32_internal_rotate_left_u64_val x (k : Int) = spec_rotate_left_64 x k := by
  have e : ((64 : Int) - (k : Int)).toNat = 64 - k := by omega
  unfold chi32_internal_rotate_left_u64_val spec_rotate_left_64
  rw [e, Int.toNat_ofNat, Nat.shiftLeft_eq, Nat.shiftRight_eq_div_pow]
  norm_num

theorem to_i32_eq_spec_signed_32 (n : Nat) (h : n < 4294967296) : to_i32 n = spec_signed_32 n := by
  unfold to_i32 spec_signed_32
  rw [Nat.mod_eq_of_lt h]
  norm_num

theorem spec_rotate_left_64_testBit (s k i : Nat) (hs : s < 2 ^ 64) (hk : k < 64) (hi : i < 64) :
    (spec_rotate_left_64 s k).testBit i = s.testBit ((i + 64 - k) % 64) := by
  unfold spec_rotate_left_64
  rw [Nat.testBit_or, Nat.testBit_mod_two_pow, ← Nat.shiftLeft_eq, Nat.testBit_shiftLeft,
    ← Nat.shiftRight_eq_div_pow, Nat.testBit_shiftRight]
  by_cases hik : k ≤ i
  · have e1 : (i + 64 - k) % 64 = i - k := by omega
    have e2 : s.testBit (64 - k + i) = false := by
      apply Nat.testBit_eq_false_of_lt
      exact lt_of_lt_of_le hs (Nat.pow_le_pow_right (by norm_num) (by omega))
    rw [e1, e2]
    simp [hi, hik]
  · have e1 : (i + 64 - k) % 64 = 64 - k + i := by omega
    rw [e1]
    simp [hik]

theorem spec_rotate_left_64_zero (s : Nat) (hs : s < 2 ^ 64) : spec_rotate_left_64 s 0 = s := by
  apply Nat.eq_of_testBit_eq
  intro i
  by_cases hi : i < 64
  · rw [spec_rotate_left_64_testBit s 0 i hs (by norm_num) hi]
    congr 1
    omega
  · unfold spec_rotate_left_64
    have h1 : (s * 2 ^ 0 % 2 ^ 64 ||| s / 2 ^ (64 - 0)) = s % 2 ^ 64 ||| s / 2 ^ 64 := by simp
    rw [h1, Nat.mod_eq_of_lt hs, Nat.div_eq_of_lt hs, Nat.or_zero]


/-- C2: for every `previous_hash` and `value`, `chi32_update_hash_value` returns
the result of steps 1 to 7 of the specification carried out over the natural
numbers on the unsigned bit patterns of its arguments (reduced modulo `2^32`
after the addition of step 3, after each of the four multiplications and after
`hash += hash >> 29`), read as a two's-complement 32-bit value; this includes
the arguments whose rotation amount is 0. -/
theorem update_hash_value_matches_spec (previous_hash value : Int) :
    chi32_update_hash_value_val previous_hash value
        = spec_signed_32 (spec_update_hash (to_u32 previous_hash) (to_u32 value))
      ∧ spec_update_hash (to_u32 previous_hash) (to_u32 value) < 2 ^ 32 := by
  have hlt : spec_update_hash (to_u32 previous_hash) (to_u32 value) < 2 ^ 32 := by
    unfold spec_update_hash
    exact Nat.mod_lt _ (by norm_num)
  refine ⟨?_, hlt⟩
  rw [← to_i32_eq_spec_signed_32 _ (by norm_num at hlt ⊢; exact hlt)]
  unfold chi32_update_hash_value_val spec_update_hash
  simp only [update_rotate_amount_eq, prime_number_1, rotate_left_u32_val_eq_spec,
    update_hash_tail, prime_number_2, prime_number_3, prime_number_4, prime_number_5,
    prime_number_6, shift_offset_1, shift_offset_2, shift_offset_3, shift_offset_4,
    Nat.shiftRight_eq_div_pow]
  norm_num

/-- C1: for every selector and index, `chi32_derive_value_at` returns the low 32
bits of the 64-bit left rotation of `state` by `offset`, read as a signed 32-bit
value, where `state` is the result of `chi32_apply_cascading_hash_interleave` as
an unsigned 64-bit word and `offset = (low XOR mid XOR high) AND 0x3F`: bit `i`
of the output, for `i` in `[0, 32)`, is bit `(i - offset) mod 64` of `state`, and
when `offset = 0` the output is the low 32 bits of `state`. -/
theorem derive_value_at_is_rotation (selector index : Int) :
    chi32_derive_value_at_val selector index
        = spec_signed_32 (spec_rotate_left_64 (derive_state_u64 selector index)
            (derive_offset (derive_state_u64 selector index)).toNat % 2 ^ 32)
      ∧ derive_offset (derive_state_u64 selector index)
        = (((low_bits_for_xor (derive_state_u64 selector index)
              ^^^ mid_bits_for_xor (derive_state_u64 selector index)
              ^^^ high_bits_for_xor (derive_state_u64 selector index)) &&& 0x3F : Nat) : Int)
      ∧ (∀ i : Nat, i < 32 →
          (to_u32 (chi32_derive_value_at_val selector index)).testBit i
            = (derive_state_u64 selector index).testBit
                (((i : Int) - derive_offset (derive_state_u64 selector index)) % 64).toNat)
      ∧ (derive_offset (derive_state_u64 selector index) = 0 →
          to_u32 (chi32_derive_value_at_val selector index)
            = derive_state_u64 selector index % 2 ^ 32) := by
  have hs : derive_state_u64 selector index < 2 ^ 64 := by
    have := to_u64_lt (chi32_apply_cascading_hash_interleave_val selector index)
    unfold derive_state_u64
    norm_num
    exact this
  obtain ⟨k, hk, hoff⟩ : ∃ k : Nat, k < 64
      ∧ derive_offset (derive_state_u64 selector index) = (k : Int) := by
    refine ⟨_, ?_, derive_offset_eq _⟩
    exact Nat.mod_lt _ (by norm_num)
  have hval : chi32_derive_value_at_val selector index
      = to_i32 (spec_rotate_left_64 (derive_state_u64 selector index) k) := by
    show to_i32 (chi32_internal_rotate_left_u64_val (derive_state_u64 selector index)
      (derive_offset (derive_state_u64 selector index))) = _
    rw [hoff, rotate_left_u64_val_eq_spec]
  have p32 : (2 : Nat) ^ 32 = 4294967296 := by norm_num
  have hu : to_u32 (chi32_derive_value_at_val selector index)
      = spec_rotate_left_64 (derive_state_u64 selector index) k % 2 ^ 32 := by
    rw [hval, to_u32_to_i32, p32]
  refine ⟨?_, ?_, ?_, ?_⟩
  · rw [hoff, Int.toNat_ofNat, p32,
      ← to_i32_eq_spec_signed_32 _ (Nat.mod_lt _ (by norm_num)), hval]
    unfold to_i32
    rw [Nat.mod_mod]
  · have h := derive_offset_eq (derive_state_u64 selector index)
    have hm := Nat.and_pow_two_sub_one_eq_mod
      (low_bits_for_xor (derive_state_u64 selector index)
        ^^^ mid_bits_for_xor (derive_state_u64 selector index)
        ^^^ high_bits_for_xor (derive_state_u64 selector index)) 6
    norm_num at hm
    rw [hm, h]
    rfl
  · intro i hi
    have e : (((i : Int) - (k : Int)) % 64).toNat = (i + 64 - k) % 64 := by omega
    rw [hu, hoff, e, Nat.testBit_mod_two_pow,
      spec_rotate_left_64_testBit _ k i hs hk (by omega)]
    simp [hi]
  · intro h0
    have hk0 : k = 0 := by
      rw [hoff] at h0
      exact_mod_cast h0
    rw [hu, hk0, spec_rotate_left_64_zero _ hs]

set_option maxRecDepth 100000 in
/-- Instance of C1 at selector 0 and index 9, where the offset is 0: the value
returned is 1981802820, the low 32 bits of the state 4377223382058395972. -/
theorem derive_value_at_is_rotation_witness :
    derive_state_u64 0 9 = 4377223382058395972
      ∧ derive_offset (derive_state_u64 0 9) = 0
      ∧ chi32_derive_value_at_val 0 9 = 1981802820
      ∧ to_u32 (chi32_derive_value_at_val 0 9) = derive_state_u64 0 9 % 2 ^ 32 :=
  ⟨by decide, by decide, by decide,
    (derive_value_at_is_rotation 0 9).2.2.2 (by decide)⟩

/-! ## Counters and comparisons of the harnesses -/

theorem add_i64_of_range (a b : Int)
    (h : -9223372036854775808 ≤ a + b ∧ a + b ≤ 9223372036854775807) :
    add_i64 a b = some (a + b) := by
  unfold add_i64
  rw [if_pos h]

theorem sub_i64_of_range (a b : Int)
    (h : -9223372036854775808 ≤ a - b ∧ a - b ≤ 9223372036854775807) :
    sub_i64 a b = some (a - b) := by
  unfold sub_i64
  rw [if_pos h]

theorem spec_wrap_64_of_range (x : Int)
    (h : -9223372036854775808 ≤ x ∧ x ≤ 9223372036854775807) : spec_wrap_64 x = x := by
  have p64 : (2 : Int) ^ 64 = 18446744073709551616 := by norm_num
  have p63 : (2 : Int) ^ 63 = 9223372036854775808 := by norm_num
  unfold spec_wrap_64
  rw [p64, p63]
  split <;> omega

theorem spec_wrap_64_eq_cast (x : Int) : spec_wrap_64 x = to_i64 (to_u64 x) := by
  have p64 : (2 : Int) ^ 64 = 18446744073709551616 := by norm_num
  have p63 : (2 : Int) ^ 63 = 9223372036854775808 := by norm_num
  unfold spec_wrap_64 to_i64 to_u64
  rw [p64, p63]
  split <;> split <;> omega

theorem compare_values_actual_values :
    ∀ (pairs : List (Nat × Nat)) (i : Nat) (st : comparison_state),
      (compare_values i pairs st).actual_values = st.actual_values ++ pairs.map Prod.snd := by
  intro pairs
  induction pairs with
  | nil =>
    intro i st
    simp [compare_values]
  | cons p rest ih =>
    intro i st
    obtain ⟨expected, actual⟩ := p
    rw [compare_values, ih, compare_value_actual_values]
    simp

theorem compare_values_errors_found :
    ∀ (pairs : List (Nat × Nat)) (i : Nat) (st : comparison_state),
      (compare_values i pairs st).errors_found
        = st.errors_found + pairs.countP (fun p => decide (p.2 ≠ p.1)) := by
  intro pairs
  induction pairs with
  | nil =>
    intro i st
    simp [compare_values]
  | cons p rest ih =>
    intro i st
    obtain ⟨expected, actual⟩ := p
    rw [compare_values, ih, compare_value_errors_found, List.countP_cons]
    by_cases h : actual = expected
    · simp [h]
    · simp [h]
      omega

theorem compare_values_reports :
    ∀ (pairs : List (Nat × Nat)) (i : Nat) (st : comparison_state),
      st.diagnostics.countP diagnostic.is_mismatch = min st.errors_found 5 →
      st.diagnostics.count diagnostic.suppressed = (if st.errors_found > 5 then 1 else 0) →
      (compare_values i pairs st).diagnostics.countP diagnostic.is_mismatch
          = min (compare_values i pairs st).errors_found 5
        ∧ (compare_values i pairs st).diagnostics.count diagnostic.suppressed
          = (if (compare_values i pairs st).errors_found > 5 then 1 else 0) := by
  intro pairs
  induction pairs with
  | nil =>
    intro i st h1 h2
    exact ⟨h1, h2⟩
  | cons p rest ih =>
    intro i st h1 h2
    obtain ⟨expected, actual⟩ := p
    obtain ⟨k1, k2⟩ := compare_value_reports i expected actual st h1 h2
    rw [compare_values]
    exact ih (i + 1) _ k1 k2

theorem countP_zip_eq_range :
    ∀ (a b : List Nat), a.length = b.length →
      (a.zip b).countP (fun p => decide (p.2 ≠ p.1))
        = (List.range a.length).countP (fun (i : Nat) => decide (a[i]? ≠ b[i]?)) := by
  intro a
  induction a with
  | nil =>
    intro b _
    simp
  | cons x a ih =>
    intro b hb
    cases b with
    | nil => simp at hb
    | cons y b =>
      have hb' : a.length = b.length := by simpa using hb
      rw [List.zip_cons_cons, List.countP_cons, ih b hb', List.length_cons, countP_range_succ]
      simp only [List.getElem?_cons_zero, List.getElem?_cons_succ]
      by_cases h : x = y
      · simp [h]
      · have h' : ¬ y = x := fun e => h e.symm
        simp [h, h']
        omega

theorem countP_zip_eq_zero_iff :
    ∀ (a b : List Nat), a.length = b.length →
      ((a.zip b).countP (fun p => decide (p.2 ≠ p.1)) = 0 ↔ a = b) := by
  intro a
  induction a with
  | nil =>
    intro b hb
    cases b with
    | nil => simp
    | cons y b => simp at hb
  | cons x a ih =>
    intro b hb
    cases b with
    | nil => simp at hb
    | cons y b =>
      have hb' : a.length = b.length := by simpa using hb
      rw [List.zip_cons_cons, List.countP_cons]
      by_cases h : x = y
      · have e : (if decide ((x, y).2 ≠ (x, y).1) = true then 1 else 0) = 0 := by simp [h]
        rw [e, Nat.add_zero, ih b hb']
        constructor
        · intro hab
          rw [h, hab]
        · intro hab
          injection hab
      · have e : (if decide ((x, y).2 ≠ (x, y).1) = true then 1 else 0) = 1 := by
          have h' : ¬ y = x := fun e => h e.symm
          simp [h']
        rw [e]
        constructor
        · intro hab
          omega
        · intro hab
          injection hab with h1 h2
          exact absurd h1 h

theorem drop_take_succ (data_buffer : List Nat) (i n : Nat) (hi : i < data_buffer.length) :
    (data_buffer.drop i).take (n + 1)
      = data_buffer[i] :: (data_buffer.drop (i + 1)).take n := by
  rw [List.drop_eq_getElem_cons hi, List.take_succ_cons]

theorem run_test_sequential_loop_eq (seed : Int) (data_buffer : List Nat) :
    ∀ (remaining i : Nat) (current_phase : Int) (st : comparison_state),
      i + remaining ≤ data_buffer.length →
      -9223372036854775808 ≤ current_phase →
      current_phase + (remaining : Int) ≤ 9223372036854775807 →
      run_test_sequential_loop seed data_buffer remaining i current_phase st
        = some (current_phase + (remaining : Int),
            compare_values i (((data_buffer.drop i).take remaining).zip
              ((List.range remaining).map
                (fun (j : Nat) => derive_value_u32 seed (current_phase + (j : Int))))) st) := by
  intro remaining
  induction remaining with
  | zero =>
    intro i current_phase st _ _ _
    simp [run_test_sequential_loop, compare_values]
  | succ n ih =>
    intro i current_phase st hlen hlo hhi
    have hi : i < data_buffer.length := by omega
    have hget : data_buffer[i]? = some data_buffer[i] := List.getElem?_eq_getElem hi
    have hincr : incr_i64 current_phase = some (current_phase + 1) := by
      unfold incr_i64
      exact add_i64_of_range _ _ (by push_cast at hhi; omega)
    have hshift : (fun (j : Nat) => derive_value_u32 seed (current_phase + ((j + 1 : Nat) : Int)))
        = (fun (j : Nat) => derive_value_u32 seed (current_phase + 1 + (j : Int))) := by
      funext j
      congr 1
      push_cast
      ring
    rw [run_test_sequential_loop, hget, hincr]
    simp only [Option.bind_eq_bind, Option.some_bind]
    rw [ih (i + 1) (current_phase + 1) _ (by omega) (by omega) (by push_cast at hhi; omega),
      drop_take_succ _ _ _ hi, range_succ_map_shift, List.zip_cons_cons, compare_values, hshift]
    simp only [Nat.cast_zero, add_zero, Nat.cast_add, Nat.cast_one]
    congr 2
    ring

theorem run_test_swapped_loop_eq (fixed_index : Int) (data_buffer : List Nat) :
    ∀ (remaining i : Nat) (current_selector : Int) (st : comparison_state),
      i + remaining ≤ data_buffer.length →
      current_selector ≤ 9223372036854775807 →
      -9223372036854775808 ≤ current_selector - (remaining : Int) →
      run_test_swapped_loop fixed_index data_buffer remaining i current_selector st
        = some (current_selector - (remaining : Int),
            compare_values i (((data_buffer.drop i).take remaining).zip
              ((List.range remaining).map
                (fun (j : Nat) => derive_value_u32 (current_selector - (j : Int)) fixed_index))) st) := by
  intro remaining
  induction remaining with
  | zero =>
    intro i current_selector st _ _ _
    simp [run_test_swapped_loop, compare_values]
  | succ n ih =>
    intro i current_selector st hlen hhi hlo
    have hi : i < data_buffer.length := by omega
    have hget : data_buffer[i]? = some data_buffer[i] := List.getElem?_eq_getElem hi
    have hdecr : decr_i64 current_selector = some (current_selector - 1) := by
      unfold decr_i64
      exact sub_i64_of_range _ _ (by push_cast at hlo; omega)
    have hshift :
        (fun (j : Nat) => derive_value_u32 (current_selector - ((j + 1 : Nat) : Int)) fixed_index)
        = (fun (j : Nat) => derive_value_u32 (current_selector - 1 - (j : Int)) fixed_index) := by
      funext j
      congr 1
      push_cast
      ring
    rw [run_test_swapped_loop, hget, hdecr]
    simp only [Option.bind_eq_bind, Option.some_bind]
    rw [ih (i + 1) (current_selector - 1) _ (by omega) (by omega) (by push_cast at hlo; omega),
      drop_take_succ _ _ _ hi, range_succ_map_shift, List.zip_cons_cons, compare_values, hshift]
    simp only [Nat.cast_zero, sub_zero, Nat.cast_add, Nat.cast_one]
    congr 2
    ring

theorem spec_feedback_step_eq (cs cp : Int) :
    spec_feedback_step (cs, cp)
      = (to_i64 (((to_u64 cs <<< 32) % 18446744073709551616) ||| (to_u64 cp >>> 32)),
          to_i64 (((to_u64 cp <<< 32) % 18446744073709551616) ||| derive_value_u32 cs cp)) := by
  have p64 : (2 : Nat) ^ 64 = 18446744073709551616 := by norm_num
  unfold spec_feedback_step
  simp only [Nat.shiftLeft_eq, Nat.shiftRight_eq_div_pow, p64]

theorem spec_feedback_state_succ (seed phase : Int) :
    ∀ n : Nat, spec_feedback_state seed phase (n + 1)
      = spec_feedback_state (spec_feedback_step (seed, phase)).1
          (spec_feedback_step (seed, phase)).2 n := by
  intro n
  induction n with
  | zero => rfl
  | succ n ih =>
    rw [spec_feedback_state, ih]
    rfl

theorem spec_feedback_values_succ (seed phase : Int) (n : Nat) :
    spec_feedback_values seed phase (n + 1)
      = derive_value_u32 seed phase
          :: spec_feedback_values (spec_feedback_step (seed, phase)).1
              (spec_feedback_step (seed, phase)).2 n := by
  have h0 : spec_feedback_output seed phase 0 = derive_value_u32 seed phase := by
    simp only [spec_feedback_output, spec_feedback_state]
  have ht : (List.range n).map (fun j => spec_feedback_output seed phase (j + 1))
      = (List.range n).map (spec_feedback_output (spec_feedback_step (seed, phase)).1
          (spec_feedback_step (seed, phase)).2) := by
    apply List.map_congr_left
    intro j _
    simp only [spec_feedback_output, spec_feedback_state_succ]
  unfold spec_feedback_values
  rw [range_succ_map_shift, h0, ht]

theorem run_test_feedback_loop_eq (data_buffer : List Nat) :
    ∀ (remaining i : Nat) (current_seed_i64 current_phase_i64 : Int) (st : comparison_state),
      i + remaining ≤ data_buffer.length →
      run_test_feedback_loop data_buffer remaining i current_seed_i64 current_phase_i64 st
        = some ((spec_feedback_state current_seed_i64 current_phase_i64 remaining).1,
            (spec_feedback_state current_seed_i64 current_phase_i64 remaining).2,
            compare_values i (((data_buffer.drop i).take remaining).zip
              (spec_feedback_values current_seed_i64 current_phase_i64 remaining)) st) := by
  intro remaining
  induction remaining with
  | zero =>
    intro i cs cp st _
    simp [run_test_feedback_loop, compare_values, spec_feedback_state, spec_feedback_values]
  | succ n ih =>
    intro i cs cp st hlen
    have hi : i < data_buffer.length := by omega
    have hget : data_buffer[i]? = some data_buffer[i] := List.getElem?_eq_getElem hi
    have hstep := spec_feedback_step_eq cs cp
    rw [run_test_feedback_loop, hget]
    simp only [Option.bind_eq_bind, Option.some_bind]
    rw [ih (i + 1) _ _ _ (by omega), drop_take_succ _ _ _ hi, spec_feedback_values_succ,
      List.zip_cons_cons, compare_values, spec_feedback_state_succ, hstep]

theorem outcome_of_compare_values (expected actual : List Nat)
    (h : expected.length = actual.length) (o : test_outcome)
    (ho : o = outcome_of (compare_values 0 (expected.zip actual) ⟨0, [], []⟩)) :
    o.actual_values = actual
      ∧ o.errors_found
        = (List.range expected.length).countP (fun (i : Nat) => decide (expected[i]? ≠ actual[i]?))
      ∧ (o.passed = true ↔ o.errors_found = 0)
      ∧ (o.passed = true ↔ expected = actual)
      ∧ o.diagnostics.countP diagnostic.is_mismatch = min o.errors_found 5
      ∧ o.diagnostics.count diagnostic.suppressed = (if o.errors_found > 5 then 1 else 0) := by
  have hav := compare_values_actual_values (expected.zip actual) 0 ⟨0, [], []⟩
  have herr := compare_values_errors_found (expected.zip actual) 0 ⟨0, [], []⟩
  obtain ⟨hm, hs⟩ := compare_values_reports (expected.zip actual) 0 ⟨0, [], []⟩ rfl rfl
  have hzero := countP_zip_eq_zero_iff expected actual h
  rw [List.map_snd_zip _ _ (le_of_eq h.symm), List.nil_append] at hav
  rw [Nat.zero_add] at herr
  generalize compare_values 0 (expected.zip actual) ⟨0, [], []⟩ = st at ho hav herr hm hs
  have herr2 := herr
  rw [countP_zip_eq_range expected actual h] at herr2
  rw [← herr] at hzero
  subst ho
  unfold outcome_of
  by_cases he : st.errors_found > 0
  · rw [if_pos he]
    refine ⟨hav, herr2, ?_, ?_, ?_, ?_⟩
    · show false = true ↔ st.errors_found = 0
      constructor
      · intro hf
        cases hf
      · intro hf
        omega
    · show false = true ↔ expected = actual
      constructor
      · intro hf
        cases hf
      · intro hf
        have := hzero.mpr hf
        omega
    · show (st.diagnostics ++ [diagnostic.test_failed st.errors_found]).countP
        diagnostic.is_mismatch = min st.errors_found 5
      rw [List.countP_append, hm]
      rfl
    · show (st.diagnostics ++ [diagnostic.test_failed st.errors_found]).count
        diagnostic.suppressed = if st.errors_found > 5 then 1 else 0
      rw [List.count_append, hs]
      simp
  · rw [if_neg he]
    refine ⟨hav, herr2, ?_, ?_, hm, hs⟩
    · show true = true ↔ st.errors_found = 0
      constructor
      · intro _
        omega
      · intro _
        rfl
    · show true = true ↔ expected = actual
      constructor
      · intro _
        exact hzero.mp (by omega)
      · intro _
        rfl

theorem spec_sequential_values_of_range (S P : Int) (L : Nat)
    (hlo : -9223372036854775808 ≤ P) (hhi : P + (L : Int) ≤ 9223372036854775808) :
    spec_sequential_values S P L
      = (List.range L).map (fun (j : Nat) => derive_value_u32 S (P + (j : Int))) := by
  unfold spec_sequential_values
  apply List.map_congr_left
  intro j hj
  have hj' : j < L := List.mem_range.mp hj
  rw [spec_wrap_64_of_range _ (by omega)]

theorem spec_swapped_values_of_range (S P : Int) (L : Nat)
    (hhi : P ≤ 9223372036854775807) (hlo : -9223372036854775809 ≤ P - (L : Int)) :
    spec_swapped_values S P L
      = (List.range L).map (fun (j : Nat) => derive_value_u32 (P - (j : Int)) S) := by
  unfold spec_swapped_values
  apply List.map_congr_left
  intro j hj
  have hj' : j < L := List.mem_range.mp hj
  rw [spec_wrap_64_of_range _ (by omega)]

theorem run_test_sequential_eq (seed phase : Int) (data_buffer : List Nat)
    (hlo : -9223372036854775808 ≤ phase)
    (hhi : phase + (data_buffer.length : Int) ≤ 9223372036854775807) :
    run_test_sequential ⟨strategy_kind_t.STRATEGY_SEQUENTIAL, seed, phase,
        (data_buffer.length : Int), some data_buffer⟩
      = some (outcome_of (compare_values 0
          (data_buffer.zip (spec_sequential_values seed phase data_buffer.length))
          ⟨0, [], []⟩)) := by
  have hloop := run_test_sequential_loop_eq seed data_buffer data_buffer.length 0 phase
    ⟨0, [], []⟩ (by omega) hlo hhi
  rw [List.drop_zero, List.take_length,
    ← spec_sequential_values_of_range seed phase _ hlo (by omega)] at hloop
  have hadd := add_i64_of_range phase (data_buffer.length : Int) (by omega)
  simp only [run_test_sequential, ne_eq, not_true_eq_false, if_false, Int.toNat_ofNat, hloop,
    hadd, Option.bind_eq_bind, Option.some_bind]
  unfold outcome_of
  split <;> rfl

theorem run_test_swapped_eq (seed phase : Int) (data_buffer : List Nat)
    (hhi : phase ≤ 9223372036854775807)
    (hlo : -9223372036854775808 ≤ phase - (data_buffer.length : Int)) :
    run_test_swapped ⟨strategy_kind_t.STRATEGY_SWAPPED, seed, phase,
        (data_buffer.length : Int), some data_buffer⟩
      = some (outcome_of (compare_values 0
          (data_buffer.zip (spec_swapped_values seed phase data_buffer.length))
          ⟨0, [], []⟩)) := by
  have hloop := run_test_swapped_loop_eq seed data_buffer data_buffer.length 0 phase
    ⟨0, [], []⟩ (by omega) hhi hlo
  rw [List.drop_zero, List.take_length,
    ← spec_swapped_values_of_range seed phase _ hhi (by omega)] at hloop
  have hsub := sub_i64_of_range phase (data_buffer.length : Int) (by omega)
  simp only [run_test_swapped, ne_eq, not_true_eq_false, if_false, Int.toNat_ofNat, hloop,
    hsub, Option.bind_eq_bind, Option.some_bind]
  unfold outcome_of
  split <;> rfl

theorem run_test_feedback_eq (seed phase : Int) (data_buffer : List Nat) :
    run_test_feedback ⟨strategy_kind_t.STRATEGY_FEEDBACK, seed, phase,
        (data_buffer.length : Int), some data_buffer⟩
      = some (outcome_of (compare_values 0
          (data_buffer.zip (spec_feedback_values seed phase data_buffer.length))
          ⟨0, [], []⟩)) := by
  have hloop := run_test_feedback_loop_eq data_buffer data_buffer.length 0 seed phase
    ⟨0, [], []⟩ (by omega)
  rw [List.drop_zero, List.take_length] at hloop
  simp only [run_test_feedback, ne_eq, not_true_eq_false, if_false, Int.toNat_ofNat, hloop,
    Option.bind_eq_bind, Option.some_bind]
  unfold outcome_of
  split <;> rfl

/-! ## The adapter -/

theorem generator_bits_feedback (g : generator_globals)
    (hs : g.g_strategy = strategy_kind_t.STRATEGY_FEEDBACK) :
    chi32_generator_bits g
      = some (derive_value_u32 g.g_current_selector g.g_current_index,
          { g with
            g_current_selector :=
              (spec_feedback_step (g.g_current_selector, g.g_current_index)).1
            g_current_index :=
              (spec_feedback_step (g.g_current_selector, g.g_current_index)).2 }) := by
  rw [spec_feedback_step_eq]
  unfold chi32_generator_bits
  simp only [hs]
  rfl

theorem generator_run_feedback_eq :
    ∀ (n : Nat) (g : generator_globals),
      g.g_strategy = strategy_kind_t.STRATEGY_FEEDBACK →
      generator_run n g
        = some (spec_feedback_values g.g_current_selector g.g_current_index n,
            { g with
              g_current_selector :=
                (spec_feedback_state g.g_current_selector g.g_current_index n).1
              g_current_index :=
                (spec_feedback_state g.g_current_selector g.g_current_index n).2 }) := by
  intro n
  induction n with
  | zero =>
    intro g _
    simp [generator_run, spec_feedback_values, spec_feedback_state]
  | succ n ih =>
    intro g hs
    rw [generator_run_succ, generator_bits_feedback g hs]
    simp only [Option.some_bind]
    rw [ih { g with
        g_current_selector := (spec_feedback_step (g.g_current_selector, g.g_current_index)).1
        g_current_index := (spec_feedback_step (g.g_current_selector, g.g_current_index)).2 } hs]
    simp only [Option.some_bind]
    rw [spec_feedback_values_succ, spec_feedback_state_succ]

/-! ## The feedback state -/

theorem derive_value_u32_lt (selector index : Int) :
    derive_value_u32 selector index < 4294967296 :=
  to_u32_lt _

theorem spec_feedback_step_fields (s : Int × Int) :
    to_u64 (spec_feedback_step s).1
        = 4294967296 * (to_u64 s.1 % 4294967296) + to_u64 s.2 / 4294967296
      ∧ to_u64 (spec_feedback_step s).2
        = 4294967296 * (to_u64 s.2 % 4294967296) + derive_value_u32 s.1 s.2 := by
  obtain ⟨cs, cp⟩ := s
  rw [spec_feedback_step_eq]
  have hv := derive_value_u32_lt cs cp
  have hp := to_u64_lt cp
  have hsl := to_u64_lt cs
  have hhi : to_u64 cp >>> 32 < 4294967296 := by
    rw [Nat.shiftRight_eq_div_pow]
    omega
  have e1 := shiftLeft_32_or (to_u64 cs) (to_u64 cp >>> 32) hhi
  have e2 := shiftLeft_32_or (to_u64 cp) (derive_value_u32 cs cp) hv
  have p32 : (2 : Nat) ^ 32 = 4294967296 := by norm_num
  rw [Nat.shiftRight_eq_div_pow, p32] at e1 hhi
  dsimp only
  constructor
  · rw [to_u64_to_i64, Nat.shiftRight_eq_div_pow, p32, e1]
    omega
  · rw [to_u64_to_i64, e2]
    omega

theorem spec_feedback_state_two (seed phase : Int) (n : Nat) :
    to_u64 (spec_feedback_state seed phase (n + 2)).1
        = to_u64 (spec_feedback_state seed phase n).2
      ∧ to_u64 (spec_feedback_state seed phase (n + 2)).2
        = (spec_feedback_output seed phase n <<< 32) ||| spec_feedback_output seed phase (n + 1) := by
  have h2 : spec_feedback_state seed phase (n + 2)
      = spec_feedback_step (spec_feedback_state seed phase (n + 1)) := rfl
  have h1 : spec_feedback_state seed phase (n + 1)
      = spec_feedback_step (spec_feedback_state seed phase n) := rfl
  obtain ⟨a1, a2⟩ := spec_feedback_step_fields (spec_feedback_state seed phase n)
  obtain ⟨c1, c2⟩ := spec_feedback_step_fields (spec_feedback_state seed phase (n + 1))
  rw [← h1] at a1 a2
  rw [← h2] at c1 c2
  have b0 := derive_value_u32_lt (spec_feedback_state seed phase n).1
    (spec_feedback_state seed phase n).2
  have b1 := derive_value_u32_lt (spec_feedback_state seed phase (n + 1)).1
    (spec_feedback_state seed phase (n + 1)).2
  have hp := to_u64_lt (spec_feedback_state seed phase n).2
  have hor : (spec_feedback_output seed phase n <<< 32) ||| spec_feedback_output seed phase (n + 1)
      = 4294967296 * spec_feedback_output seed phase n + spec_feedback_output seed phase (n + 1) := by
    rw [Nat.shiftLeft_eq, Nat.mul_comm]
    exact (Nat.mul_add_lt_is_or (i := 32) (by norm_num; exact b1) _).symm
  constructor
  · omega
  · rw [hor, c2, a2]
    unfold spec_feedback_output
    omega

theorem spec_feedback_values_add_two (seed phase : Int) (n : Nat) :
    spec_feedback_values seed phase (n + 2)
      = spec_feedback_values seed phase n
        ++ [spec_feedback_output seed phase n, spec_feedback_output seed phase (n + 1)] := by
  unfold spec_feedback_values
  rw [List.range_succ, List.range_succ]
  simp

theorem spec_feedback_values_add_four (seed phase : Int) (n : Nat) :
    spec_feedback_values seed phase (n + 4)
      = spec_feedback_values seed phase n
        ++ [spec_feedback_output seed phase n, spec_feedback_output seed phase (n + 1),
          spec_feedback_output seed phase (n + 2), spec_feedback_output seed phase (n + 3)] := by
  unfold spec_feedback_values
  rw [List.range_succ, List.range_succ, List.range_succ, List.range_succ]
  simp

/-! ## Claims on the two harnesses -/

/-- C12: one feedback step from any state `(selector, index)`, with
`o = chi32_derive_value_at(selector, index)`, in the adapter and in the loop of
`run_test_feedback`: the new selector is `(selector << 32) | (index >> 32)` and
the new index is `(index << 32) | zero_extended(o)` on the unsigned 64-bit
patterns; the high 32 bits of the new index are the low 32 bits of `index` and
its low 32 bits are `o` read as unsigned, for every state, whatever the sign of
`o`. -/
theorem feedback_step_state (selector index a b : Int) (expected : Nat)
    (st : comparison_state) :
    chi32_generator_bits ⟨selector, index, a, b, strategy_kind_t.STRATEGY_FEEDBACK⟩
        = some (to_u32 (chi32_derive_value_at_val selector index),
            ⟨(spec_feedback_step (selector, index)).1, (spec_feedback_step (selector, index)).2,
              a, b, strategy_kind_t.STRATEGY_FEEDBACK⟩)
      ∧ run_test_feedback_loop [expected] 1 0 selector index st
        = some ((spec_feedback_step (selector, index)).1,
            (spec_feedback_step (selector, index)).2,
            compare_value 0 expected (to_u32 (chi32_derive_value_at_val selector index)) st)
      ∧ to_u64 (spec_feedback_step (selector, index)).1
        = ((to_u64 selector * 2 ^ 32) % 2 ^ 64) ||| (to_u64 index / 2 ^ 32)
      ∧ to_u64 (spec_feedback_step (selector, index)).2
        = ((to_u64 index * 2 ^ 32) % 2 ^ 64) ||| to_u32 (chi32_derive_value_at_val selector index)
      ∧ to_u64 (spec_feedback_step (selector, index)).2 / 2 ^ 32 = to_u64 index % 2 ^ 32
      ∧ to_u64 (spec_feedback_step (selector, index)).2 % 2 ^ 32
        = to_u32 (chi32_derive_value_at_val selector index) := by
  have p32 : (2 : Nat) ^ 32 = 4294967296 := by norm_num
  have p64 : (2 : Nat) ^ 64 = 18446744073709551616 := by norm_num
  have hv : to_u32 (chi32_derive_value_at_val selector index) < 4294967296 := to_u32_lt _
  have hp := to_u64_lt index
  have hhi : to_u64 index / 4294967296 < 4294967296 := by omega
  have e1 := shiftLeft_32_or (to_u64 selector) (to_u64 index / 4294967296) hhi
  have e2 := shiftLeft_32_or (to_u64 index) (to_u32 (chi32_derive_value_at_val selector index)) hv
  obtain ⟨f1, f2⟩ := spec_feedback_step_fields (selector, index)
  have f2' : to_u64 (spec_feedback_step (selector, index)).2
      = 4294967296 * (to_u64 index % 4294967296)
        + to_u32 (chi32_derive_value_at_val selector index) := f2
  rw [Nat.shiftLeft_eq, p32] at e1 e2
  refine ⟨?_, ?_, ?_, ?_, ?_, ?_⟩
  · exact generator_bits_feedback ⟨selector, index, a, b, strategy_kind_t.STRATEGY_FEEDBACK⟩ rfl
  · rw [spec_feedback_step_eq]
    rfl
  · rw [p32, p64, e1]
    exact f1
  · rw [p32, p64, e2]
    exact f2'
  · rw [p32, f2']
    omega
  · rw [p32, f2']
    omega

/-- C14: for a sequential test case with a loaded reference buffer of length `L`
for which the counter stays in the range of `int64_t`, `run_test_sequential`
computes a value for every one of the `L` positions, its counter ends as the
number of positions `i` with `data[i] != chi32_derive_value_at(seed, phase + i)`,
it returns true exactly when that number is 0, it reports `min(errors, 5)`
mismatches in full, and it prints the suppression notice once when there are
more than 5 mismatches and not at all otherwise. -/
theorem run_test_sequential_counts (seed phase : Int) (data_buffer : List Nat)
    (hlo : -9223372036854775808 ≤ phase)
    (hhi : phase + (data_buffer.length : Int) ≤ 9223372036854775807) :
    ∃ outcome,
      run_test_sequential ⟨strategy_kind_t.STRATEGY_SEQUENTIAL, seed, phase,
          (data_buffer.length : Int), some data_buffer⟩ = some outcome
        ∧ outcome.actual_values
          = (List.range data_buffer.length).map
              (fun (i : Nat) => derive_value_u32 seed (phase + (i : Int)))
        ∧ outcome.errors_found = (List.range data_buffer.length).countP (fun (i : Nat) =>
            decide (data_buffer[i]? ≠ some (derive_value_u32 seed (phase + (i : Int)))))
        ∧ (outcome.passed = true ↔ outcome.errors_found = 0)
        ∧ outcome.diagnostics.countP diagnostic.is_mismatch = min outcome.errors_found 5
        ∧ outcome.diagnostics.count diagnostic.suppressed
            = (if outcome.errors_found > 5 then 1 else 0) := by
  have hspec := spec_sequential_values_of_range seed phase data_buffer.length hlo (by omega)
  have hlen : data_buffer.length = (spec_sequential_values seed phase data_buffer.length).length := by
    simp [spec_sequential_values]
  obtain ⟨hav, herr, hpass, _, hm, hs⟩ := outcome_of_compare_values data_buffer
    (spec_sequential_values seed phase data_buffer.length) hlen _ rfl
  refine ⟨_, run_test_sequential_eq seed phase data_buffer hlo hhi, ?_, ?_, hpass, hm, hs⟩
  · rw [hav, hspec]
  · rw [herr, hspec]
    apply List.countP_congr
    intro i hi
    have hi' : i < data_buffer.length := List.mem_range.mp hi
    simp [hi']

/-- Instance of C14 at seed 0, phase 5 and a buffer of seven zeros: the indices
run from 5 to 11 and pass index 9, where the rotation offset is 0. -/
theorem run_test_sequential_counts_witness :
    ∃ outcome,
      run_test_sequential ⟨strategy_kind_t.STRATEGY_SEQUENTIAL, 0, 5,
          ((List.replicate 7 0).length : Int), some (List.replicate 7 0)⟩ = some outcome
        ∧ outcome.actual_values
          = (List.range (List.replicate 7 0).length).map
              (fun (i : Nat) => derive_value_u32 0 (5 + (i : Int)))
        ∧ outcome.errors_found = (List.range (List.replicate 7 0).length).countP (fun (i : Nat) =>
            decide ((List.replicate 7 0)[i]? ≠ some (derive_value_u32 0 (5 + (i : Int)))))
        ∧ (outcome.passed = true ↔ outcome.errors_found = 0)
        ∧ outcome.diagnostics.countP diagnostic.is_mismatch = min outcome.errors_found 5
        ∧ outcome.diagnostics.count diagnostic.suppressed
            = (if outcome.errors_found > 5 then 1 else 0) :=
  run_test_sequential_counts 0 5 (List.replicate 7 0) (by decide) (by decide)

theorem to_i64_to_u64_to_i64 (x : Nat) : to_i64 (to_u64 (to_i64 x)) = to_i64 x := by
  rw [to_u64_to_i64]
  unfold to_i64
  rw [Nat.mod_mod]

theorem spec_feedback_state_cast (seed phase : Int) (n : Nat) :
    to_i64 (to_u64 (spec_feedback_state seed phase (n + 1)).1)
        = (spec_feedback_state seed phase (n + 1)).1
      ∧ to_i64 (to_u64 (spec_feedback_state seed phase (n + 1)).2)
        = (spec_feedback_state seed phase (n + 1)).2 := by
  have h : spec_feedback_state seed phase (n + 1)
      = spec_feedback_step (spec_feedback_state seed phase n) := rfl
  rw [h]
  unfold spec_feedback_step
  exact ⟨to_i64_to_u64_to_i64 _, to_i64_to_u64_to_i64 _⟩

/-- C23: in the feedback strategy, from every start state and for every `n`,
the calls of the adapter return values, the selector after `n + 2` calls is the
index after `n` calls, the index after `n + 2` calls is
`(out_n << 32) | out_(n+1)`, and after `n + 4` calls the state is
`((out_n << 32) | out_(n+1), (out_(n+2) << 32) | out_(n+3))`, built from the
four most recent outputs only; the loop of `run_test_feedback` over a buffer of
at least `n + 4` values ends in the same state as the adapter. -/
theorem feedback_shift_register (selector index a b : Int) (n : Nat)
    (data_buffer : List Nat) (st : comparison_state)
    (hlen : n + 4 ≤ data_buffer.length) :
    ∃ values gn g2 g4 o0 o1 o2 o3,
      generator_run n ⟨selector, index, a, b, strategy_kind_t.STRATEGY_FEEDBACK⟩
          = some (values, gn)
        ∧ generator_run (n + 2) ⟨selector, index, a, b, strategy_kind_t.STRATEGY_FEEDBACK⟩
          = some (values ++ [o0, o1], g2)
        ∧ generator_run (n + 4) ⟨selector, index, a, b, strategy_kind_t.STRATEGY_FEEDBACK⟩
          = some (values ++ [o0, o1, o2, o3], g4)
        ∧ o0 < 2 ^ 32 ∧ o1 < 2 ^ 32 ∧ o2 < 2 ^ 32 ∧ o3 < 2 ^ 32
        ∧ to_u64 g2.g_current_selector = to_u64 gn.g_current_index
        ∧ to_u64 g2.g_current_index = (o0 <<< 32) ||| o1
        ∧ to_u64 g4.g_current_selector = (o0 <<< 32) ||| o1
        ∧ to_u64 g4.g_current_index = (o2 <<< 32) ||| o3
        ∧ g4.g_current_selector = to_i64 ((o0 <<< 32) ||| o1)
        ∧ g4.g_current_index = to_i64 ((o2 <<< 32) ||| o3)
        ∧ (run_test_feedback_loop data_buffer (n + 4) 0 selector index st).map
            (fun r => (r.1, r.2.1))
          = some (g4.g_current_selector, g4.g_current_index) := by
  have p32 : (2 : Nat) ^ 32 = 4294967296 := by norm_num
  have hout : ∀ k : Nat, spec_feedback_output selector index k < 2 ^ 32 := by
    intro k
    rw [p32]
    exact derive_value_u32_lt _ _
  obtain ⟨a1, a2⟩ := spec_feedback_state_two selector index n
  obtain ⟨b1, b2⟩ := spec_feedback_state_two selector index (n + 2)
  refine ⟨spec_feedback_values selector index n,
    ⟨(spec_feedback_state selector index n).1, (spec_feedback_state selector index n).2, a, b,
      strategy_kind_t.STRATEGY_FEEDBACK⟩,
    ⟨(spec_feedback_state selector index (n + 2)).1,
      (spec_feedback_state selector index (n + 2)).2, a, b, strategy_kind_t.STRATEGY_FEEDBACK⟩,
    ⟨(spec_feedback_state selector index (n + 4)).1,
      (spec_feedback_state selector index (n + 4)).2, a, b, strategy_kind_t.STRATEGY_FEEDBACK⟩,
    spec_feedback_output selector index n, spec_feedback_output selector index (n + 1),
    spec_feedback_output selector index (n + 2), spec_feedback_output selector index (n + 3),
    ?_, ?_, ?_, hout _, hout _, hout _, hout _, a1, a2, ?_, b2, ?_, ?_, ?_⟩
  · exact generator_run_feedback_eq n
      ⟨selector, index, a, b, strategy_kind_t.STRATEGY_FEEDBACK⟩ rfl
  · rw [← spec_feedback_values_add_two]
    exact generator_run_feedback_eq (n + 2)
      ⟨selector, index, a, b, strategy_kind_t.STRATEGY_FEEDBACK⟩ rfl
  · rw [← spec_feedback_values_add_four]
    exact generator_run_feedback_eq (n + 4)
      ⟨selector, index, a, b, strategy_kind_t.STRATEGY_FEEDBACK⟩ rfl
  · show to_u64 (spec_feedback_state selector index (n + 2 + 2)).1 = _
    rw [b1]
    exact a2
  · show (spec_feedback_state selector index (n + 2 + 2)).1 = _
    rw [← a2, ← b1]
    exact (spec_feedback_state_cast selector index (n + 3)).1.symm
  · show (spec_feedback_state selector index (n + 2 + 2)).2 = _
    rw [← b2]
    exact (spec_feedback_state_cast selector index (n + 3)).2.symm
  · rw [run_test_feedback_loop_eq data_buffer (n + 4) 0 selector index st (by omega)]
    rfl

/-- Instance of C23 at the start state `(3, 1)` with `n = 60` and a buffer of 64
values: 64 calls. -/
theorem feedback_shift_register_witness :
    ∃ values gn g2 g4 o0 o1 o2 o3,
      generator_run 60 ⟨3, 1, 3, 1, strategy_kind_t.STRATEGY_FEEDBACK⟩ = some (values, gn)
        ∧ generator_run (60 + 2) ⟨3, 1, 3, 1, strategy_kind_t.STRATEGY_FEEDBACK⟩
          = some (values ++ [o0, o1], g2)
        ∧ generator_run (60 + 4) ⟨3, 1, 3, 1, strategy_kind_t.STRATEGY_FEEDBACK⟩
          = some (values ++ [o0, o1, o2, o3], g4)
        ∧ o0 < 2 ^ 32 ∧ o1 < 2 ^ 32 ∧ o2 < 2 ^ 32 ∧ o3 < 2 ^ 32
        ∧ to_u64 g2.g_current_selector = to_u64 gn.g_current_index
        ∧ to_u64 g2.g_current_index = (o0 <<< 32) ||| o1
        ∧ to_u64 g4.g_current_selector = (o0 <<< 32) ||| o1
        ∧ to_u64 g4.g_current_index = (o2 <<< 32) ||| o3
        ∧ g4.g_current_selector = to_i64 ((o0 <<< 32) ||| o1)
        ∧ g4.g_current_index = to_i64 ((o2 <<< 32) ||| o3)
        ∧ (run_test_feedback_loop (List.replicate 64 0) (60 + 4) 0 3 1 ⟨0, [], []⟩).map
            (fun r => (r.1, r.2.1))
          = some (g4.g_current_selector, g4.g_current_index) :=
  feedback_shift_register 3 1 3 1 60 (List.replicate 64 0) ⟨0, [], []⟩ (by decide)

/-! ## The reports of `main` -/

theorem read_values_length :
    ∀ (n : Nat) (bytes values : List Nat), read_values n bytes = some values →
      values.length = n := by
  intro n
  induction n with
  | zero =>
    intro bytes values h
    rw [read_values] at h
    cases h
    rfl
  | succ n ih =>
    intro bytes values h
    match bytes, h with
    | b0 :: b1 :: b2 :: b3 :: rest, h =>
      rw [read_values] at h
      cases hr : read_values n rest with
      | none =>
        rw [hr] at h
        cases h
      | some vs =>
        rw [hr] at h
        cases h
        rw [List.length_cons, ih rest vs hr]
    | [], h => cases h
    | [_], h => cases h
    | [_, _], h => cases h
    | [_, _, _], h => cases h

theorem passed_eq_decide (o : test_outcome) (p : Prop) [Decidable p]
    (h : o.passed = true ↔ p) : o.passed = decide p := by
  cases hb : o.passed with
  | true => exact (decide_eq_true (h.mp hb)).symm
  | false =>
    have hn : ¬ p := fun hp => by
      rw [h.mpr hp] at hb
      cases hb
    exact (decide_eq_false hn).symm

theorem run_test_by_strategy_eq (test_case : canonical_test_case_t) (values : List Nat)
    (hdata : test_case.data_buffer = some values)
    (hlen : test_case.length = (values.length : Int))
    (hrange : counters_in_range test_case = true) :
    run_test_by_strategy test_case
      = some (decide (test_case.strategy ≠ strategy_kind_t.STRATEGY_UNKNOWN
          ∧ values = spec_strategy_values test_case.strategy test_case.seed test_case.phase
              values.length)) := by
  obtain ⟨k, seed, phase, length, db⟩ := test_case
  simp only at hdata hlen
  subst hdata hlen
  cases k with
  | STRATEGY_SEQUENTIAL =>
    have hr : -9223372036854775808 ≤ phase
        ∧ phase + (values.length : Int) ≤ 9223372036854775807 := by
      simpa [counters_in_range] using hrange
    have hl : values.length = (spec_sequential_values seed phase values.length).length := by
      simp [spec_sequential_values]
    obtain ⟨_, _, _, hp, _⟩ := outcome_of_compare_values values _ hl _ rfl
    unfold run_test_by_strategy
    simp only []
    rw [run_test_sequential_eq seed phase values hr.1 hr.2, Option.map_some']
    congr 1
    apply passed_eq_decide
    rw [hp]
    simp [spec_strategy_values]
  | STRATEGY_SWAPPED =>
    have hr : phase ≤ 9223372036854775807
        ∧ -9223372036854775808 ≤ phase - (values.length : Int) := by
      simpa [counters_in_range] using hrange
    have hl : values.length = (spec_swapped_values seed phase values.length).length := by
      simp [spec_swapped_values]
    obtain ⟨_, _, _, hp, _⟩ := outcome_of_compare_values values _ hl _ rfl
    unfold run_test_by_strategy
    simp only []
    rw [run_test_swapped_eq seed phase values hr.1 hr.2, Option.map_some']
    congr 1
    apply passed_eq_decide
    rw [hp]
    simp [spec_strategy_values]
  | STRATEGY_FEEDBACK =>
    have hl : values.length = (spec_feedback_values seed phase values.length).length := by
      simp [spec_feedback_values]
    obtain ⟨_, _, _, hp, _⟩ := outcome_of_compare_values values _ hl _ rfl
    unfold run_test_by_strategy
    simp only []
    rw [run_test_feedback_eq seed phase values, Option.map_some']
    congr 1
    apply passed_eq_decide
    rw [hp]
    simp [spec_strategy_values]
  | STRATEGY_UNKNOWN =>
    simp [run_test_by_strategy]

theorem report_for_case_eq (c : parsed_test_case)
    (hrange : (load_binary_data_for_test_case c).1 = true →
      counters_in_range c.test_case = true) :
    report_for_case c = some (spec_case_report c) := by
  unfold load_binary_data_for_test_case at hrange
  unfold report_for_case load_binary_data_for_test_case spec_case_report
  by_cases h0 : c.bin_filename = "" ∨ c.test_case.length ≤ 0
  · rw [if_pos h0, if_pos h0]
  · rw [if_neg h0, if_neg h0]
    cases hf : c.file with
    | none => rfl
    | some bytes =>
      simp only [Option.some_bind]
      cases hr : read_values c.test_case.length.toNat bytes with
      | none => rfl
      | some values =>
        simp only []
        have hlen := read_values_length _ _ _ hr
        have hl : c.test_case.length = (values.length : Int) := by
          rw [hlen]
          omega
        have hrange2 : counters_in_range { c.test_case with data_buffer := some values } = true := by
          rw [if_neg h0, hf] at hrange
          simp only [hr] at hrange
          exact hrange trivial
        rw [run_test_by_strategy_eq { c.test_case with data_buffer := some values } values rfl hl
          hrange2, Option.map_some']
        simp only [decide_eq_true_eq]

theorem spec_case_report_pass_iff (c : parsed_test_case) :
    spec_case_report c = case_report.pass
      ↔ c.bin_filename ≠ "" ∧ 0 < c.test_case.length
        ∧ c.test_case.strategy ≠ strategy_kind_t.STRATEGY_UNKNOWN
        ∧ ∃ bytes, c.file = some bytes
          ∧ read_values c.test_case.length.toNat bytes
            = some (spec_strategy_values c.test_case.strategy c.test_case.seed c.test_case.phase
                c.test_case.length.toNat) := by
  unfold spec_case_report
  by_cases h0 : c.bin_filename = "" ∨ c.test_case.length ≤ 0
  · rw [if_pos h0]
    constructor
    · intro h
      cases h
    · rintro ⟨h1, h2, _⟩
      rcases h0 with h0 | h0
      · exact absurd h0 h1
      · omega
  · rw [if_neg h0]
    have h1 : c.bin_filename ≠ "" := fun e => h0 (Or.inl e)
    have h2 : 0 < c.test_case.length := by
      by_contra hc
      exact h0 (Or.inr (by omega))
    cases hf : c.file with
    | none =>
      constructor
      · intro h
        cases h
      · rintro ⟨_, _, _, bytes, hb, _⟩
        cases hb
    | some bytes =>
      simp only [Option.some_bind]
      cases hr : read_values c.test_case.length.toNat bytes with
      | none =>
        constructor
        · intro h
          cases h
        · rintro ⟨_, _, _, bytes2, hb, hv⟩
          cases hb
          rw [hr] at hv
          cases hv
      | some values =>
        simp only []
        have hlen := read_values_length _ _ _ hr
        by_cases hp : c.test_case.strategy ≠ strategy_kind_t.STRATEGY_UNKNOWN
            ∧ values = spec_strategy_values c.test_case.strategy c.test_case.seed
                c.test_case.phase values.length
        · rw [if_pos hp]
          constructor
          · intro _
            refine ⟨h1, h2, hp.1, bytes, rfl, ?_⟩
            rw [hr, ← hlen, ← hp.2]
          · intro _
            rfl
        · rw [if_neg hp]
          constructor
          · intro h
            cases h
          · rintro ⟨_, _, hk, bytes2, hb, hv⟩
            cases hb
            rw [hr] at hv
            have hv' := Option.some.inj hv
            exact absurd ⟨hk, by rw [hlen]; exact hv'⟩ hp

/-- C16: `main` over the parsed test cases, where each case that loads has
counters that stay in the range of `int64_t`, prints for every case the report the case earns on its own,
whatever happened to the cases before it: a failed load for a case with an empty
file name, a non-positive length or a file that is missing or too short, a pass
for a case whose loaded values are the values of its strategy, a failure
otherwise.  The exit status is `EXIT_SUCCESS` exactly when at least one case
was parsed and every case loaded `length` values that are the values of its
(known) strategy. -/
theorem main_exit_status (test_cases : List parsed_test_case)
    (hrange : ∀ c ∈ test_cases, (load_binary_data_for_test_case c).1 = true →
      counters_in_range c.test_case = true) :
    ∃ status,
      main (some test_cases) = some (status, test_cases.map spec_case_report)
        ∧ (status = exit_status.EXIT_SUCCESS
          ↔ test_cases ≠ [] ∧ ∀ c ∈ test_cases,
              c.bin_filename ≠ "" ∧ 0 < c.test_case.length
                ∧ c.test_case.strategy ≠ strategy_kind_t.STRATEGY_UNKNOWN
                ∧ ∃ bytes, c.file = some bytes
                  ∧ read_values c.test_case.length.toNat bytes
                    = some (spec_strategy_values c.test_case.strategy c.test_case.seed
                        c.test_case.phase c.test_case.length.toNat)) := by
  have hrep : ∀ c ∈ test_cases, report_for_case c = some (spec_case_report c) :=
    fun c hc => report_for_case_eq c (hrange c hc)
  have hpass : (∀ c ∈ test_cases, report_for_case c = some case_report.pass)
      ↔ ∀ c ∈ test_cases,
          c.bin_filename ≠ "" ∧ 0 < c.test_case.length
            ∧ c.test_case.strategy ≠ strategy_kind_t.STRATEGY_UNKNOWN
            ∧ ∃ bytes, c.file = some bytes
              ∧ read_values c.test_case.length.toNat bytes
                = some (spec_strategy_values c.test_case.strategy c.test_case.seed
                    c.test_case.phase c.test_case.length.toNat) := by
    constructor
    · intro h c hc
      have h1 := h c hc
      rw [hrep c hc] at h1
      exact (spec_case_report_pass_iff c).mp (Option.some.inj h1)
    · intro h c hc
      rw [hrep c hc, (spec_case_report_pass_iff c).mpr (h c hc)]
  cases test_cases with
  | nil =>
    refine ⟨exit_status.EXIT_FAILURE, rfl, ?_⟩
    constructor
    · intro h
      cases h
    · intro h
      exact absurd rfl h.1
  | cons c rest =>
    obtain ⟨all', reports', hrun, hreports, hall⟩ := main_loop_reports (c :: rest) true []
      (fun c' hc' => by rw [hrep c' hc']; rfl)
    have hreports2 : reports' = (c :: rest).map spec_case_report := by
      apply List.map_injective_iff.mpr (Option.some_injective case_report)
      rw [hreports, List.map_nil, List.nil_append, List.map_map]
      apply List.map_congr_left
      intro c' hc'
      exact hrep c' hc'
    have hmain : main (some (c :: rest))
        = some (if all' = true then exit_status.EXIT_SUCCESS else exit_status.EXIT_FAILURE,
            reports') := by
      have hpos : ¬ (((c :: rest).length : Int) ≤ 0) := by
        rw [List.length_cons]
        push_cast
        omega
      unfold main
      simp only [hpos, if_false, hrun, Option.bind_eq_bind, Option.some_bind]
      cases all' <;> rfl
    refine ⟨_, by rw [hmain, hreports2], ?_⟩
    rw [← hpass, ← (show (all' = true ↔ ∀ c' ∈ c :: rest,
      report_for_case c' = some case_report.pass) from by rw [hall]; simp)]
    cases all' <;> simp


set_option maxRecDepth 100000 in
/-- Instance of C16: three parsed cases.  The sequential case (seed 0, phase 0,
one value) loads the bytes `45 09 dd 52` and passes, the swapped case has no
reference file and is reported as a failed load, and the feedback case that
follows it is still loaded and passes. -/
theorem main_exit_status_witness :
    [(⟨⟨strategy_kind_t.STRATEGY_SEQUENTIAL, 0, 0, 1, none⟩, "sequential.bin",
          some [0x45, 0x09, 0xdd, 0x52]⟩ : parsed_test_case),
        ⟨⟨strategy_kind_t.STRATEGY_SWAPPED, 0, 20, 2, none⟩, "swapped.bin", none⟩,
        ⟨⟨strategy_kind_t.STRATEGY_FEEDBACK, 0, 0, 1, none⟩, "feedback.bin",
          some [0x45, 0x09, 0xdd, 0x52]⟩].map spec_case_report
        = [case_report.pass, case_report.load_failed, case_report.pass]
      ∧ ∃ status,
        main (some
          [⟨⟨strategy_kind_t.STRATEGY_SEQUENTIAL, 0, 0, 1, none⟩, "sequential.bin",
              some [0x45, 0x09, 0xdd, 0x52]⟩,
            ⟨⟨strategy_kind_t.STRATEGY_SWAPPED, 0, 20, 2, none⟩, "swapped.bin", none⟩,
            ⟨⟨strategy_kind_t.STRATEGY_FEEDBACK, 0, 0, 1, none⟩, "feedback.bin",
              some [0x45, 0x09, 0xdd, 0x52]⟩])
          = some (status,
            [(⟨⟨strategy_kind_t.STRATEGY_SEQUENTIAL, 0, 0, 1, none⟩, "sequential.bin",
                some [0x45, 0x09, 0xdd, 0x52]⟩ : parsed_test_case),
              ⟨⟨strategy_kind_t.STRATEGY_SWAPPED, 0, 20, 2, none⟩, "swapped.bin", none⟩,
              ⟨⟨strategy_kind_t.STRATEGY_FEEDBACK, 0, 0, 1, none⟩, "feedback.bin",
                some [0x45, 0x09, 0xdd, 0x52]⟩].map spec_case_report)
        ∧ (status = exit_status.EXIT_SUCCESS
          ↔ [(⟨⟨strategy_kind_t.STRATEGY_SEQUENTIAL, 0, 0, 1, none⟩, "sequential.bin",
                some [0x45, 0x09, 0xdd, 0x52]⟩ : parsed_test_case),
              ⟨⟨strategy_kind_t.STRATEGY_SWAPPED, 0, 20, 2, none⟩, "swapped.bin", none⟩,
              ⟨⟨strategy_kind_t.STRATEGY_FEEDBACK, 0, 0, 1, none⟩, "feedback.bin",
                some [0x45, 0x09, 0xdd, 0x52]⟩] ≠ []
            ∧ ∀ c ∈
              [(⟨⟨strategy_kind_t.STRATEGY_SEQUENTIAL, 0, 0, 1, none⟩, "sequential.bin",
                  some [0x45, 0x09, 0xdd, 0x52]⟩ : parsed_test_case),
                ⟨⟨strategy_kind_t.STRATEGY_SWAPPED, 0, 20, 2, none⟩, "swapped.bin", none⟩,
                ⟨⟨strategy_kind_t.STRATEGY_FEEDBACK, 0, 0, 1, none⟩, "feedback.bin",
                  some [0x45, 0x09, 0xdd, 0x52]⟩],
              c.bin_filename ≠ "" ∧ 0 < c.test_case.length
                ∧ c.test_case.strategy ≠ strategy_kind_t.STRATEGY_UNKNOWN
                ∧ ∃ bytes, c.file = some bytes
                  ∧ read_values c.test_case.length.toNat bytes
                    = some (spec_strategy_values c.test_case.strategy c.test_case.seed
                        c.test_case.phase c.test_case.length.toNat)) :=
  ⟨by decide,
    main_exit_status
      [⟨⟨strategy_kind_t.STRATEGY_SEQUENTIAL, 0, 0, 1, none⟩, "sequential.bin",
          some [0x45, 0x09, 0xdd, 0x52]⟩,
        ⟨⟨strategy_kind_t.STRATEGY_SWAPPED, 0, 20, 2, none⟩, "swapped.bin", none⟩,
        ⟨⟨strategy_kind_t.STRATEGY_FEEDBACK, 0, 0, 1, none⟩, "feedback.bin",
          some [0x45, 0x09, 0xdd, 0x52]⟩]
      (by decide)⟩

end Chi32
